import Mathlib

/-!
Shallow embedding of the report pipeline in `src/services/reportService.ts`
(parseNessusFile, mergeHosts, mergeAndCountVulnerabilities,
calculateVulnerabilityTotals, generateVulnerabilitySection, generateReport),
together with models of the JavaScript primitives the code relies on
(parseInt, parseFloat, Number, Map, Array.prototype.sort).
-/

namespace NessusReport

/-! ## JavaScript numeric primitives -/

def pow10 : Nat → Int
  | 0 => 1
  | n + 1 => 10 * pow10 n

/-- An exact finite JavaScript number value: every numeral this pipeline
handles is decimal, represented as `num / 10 ^ scale`. Comparisons and
subtraction are exact (cross-multiplied), matching IEEE behaviour on the
values the pipeline actually compares. -/
structure DecNum where
  num : Int
  scale : Nat
deriving Repr

/-- Value order: `a ≤ b` as rational values. -/
def DecNum.le (a b : DecNum) : Bool :=
  a.num * pow10 b.scale ≤ b.num * pow10 a.scale

/-- Value equality (JavaScript `===` on finite numbers). -/
def DecNum.beqVal (a b : DecNum) : Bool :=
  a.num * pow10 b.scale == b.num * pow10 a.scale

def DecNum.sub (a b : DecNum) : DecNum :=
  ⟨a.num * pow10 b.scale - b.num * pow10 a.scale, a.scale + b.scale⟩

def DecNum.neg (a : DecNum) : DecNum := ⟨-a.num, a.scale⟩

def DecNum.ofNat (n : Nat) : DecNum := ⟨n, 0⟩

/-- The rational value denoted by a `DecNum`. -/
def DecNum.toRat (a : DecNum) : ℚ := (a.num : ℚ) / ((pow10 a.scale : Int) : ℚ)

/-- A JavaScript number that may be NaN: `none` models NaN. -/
abbrev JsNum := Option DecNum

def isWsChar (c : Char) : Bool :=
  c == ' ' || c == '\t' || c == '\n' || c == '\r'

def digitsToNat (ds : List Char) : Nat :=
  ds.foldl (fun a c => a * 10 + (c.toNat - 48)) 0

/-- The longest digit run at the head of `cs`, or `none` when it is empty. -/
def leadingDigits (cs : List Char) : Option Nat :=
  let ds := cs.takeWhile Char.isDigit
  if ds.isEmpty then none else some (digitsToNat ds)

/-- Model of JavaScript `parseInt(s)` on decimal input: skip leading
whitespace, read an optional sign and then the longest digit run; the result
is NaN (`none`) when no digit follows the sign. -/
def jsParseInt (s : String) : Option Int :=
  match s.toList.dropWhile isWsChar with
  | '-' :: rest => (leadingDigits rest).map (fun n => -(n : Int))
  | '+' :: rest => (leadingDigits rest).map (fun n => (n : Int))
  | rest => (leadingDigits rest).map (fun n => (n : Int))

/-- Digits read after the decimal point together with their count. -/
def fracPart (cs : List Char) : List Char :=
  match cs with
  | '.' :: r => r.takeWhile Char.isDigit
  | _ => []

/-- Unsigned decimal literal at the head of `cs`: integer digits, then an
optional point and fraction digits. NaN when neither side has a digit. -/
def readDecimal (cs : List Char) : Option DecNum :=
  let ip := cs.takeWhile Char.isDigit
  let fp := fracPart (cs.dropWhile Char.isDigit)
  if ip.isEmpty && fp.isEmpty then none
  else some ⟨(digitsToNat ip : Int) * pow10 fp.length + (digitsToNat fp : Int), fp.length⟩

/-- Model of JavaScript `parseFloat(s)`: skip leading whitespace, optional
sign, then a decimal literal prefix; NaN when no digits are found. Exponent
forms never occur in the data this pipeline compares. -/
def jsParseFloat (s : String) : JsNum :=
  match s.toList.dropWhile isWsChar with
  | '-' :: rest => (readDecimal rest).map DecNum.neg
  | '+' :: rest => readDecimal rest
  | rest => readDecimal rest

/-- Model of JavaScript `Number(s)` as applied to one dot-free address
segment: the trimmed empty string is 0, an optionally signed all-digit
string is its value, anything else is NaN. -/
def jsNumber (s : String) : JsNum :=
  let cs := (s.toList.dropWhile isWsChar).reverse.dropWhile isWsChar |>.reverse
  if cs.isEmpty then some (DecNum.ofNat 0)
  else
    match cs with
    | '-' :: r =>
      if !r.isEmpty && r.all Char.isDigit then some (DecNum.neg (DecNum.ofNat (digitsToNat r)))
      else none
    | '+' :: r => if !r.isEmpty && r.all Char.isDigit then some (DecNum.ofNat (digitsToNat r)) else none
    | r => if r.all Char.isDigit then some (DecNum.ofNat (digitsToNat r)) else none

/-- JavaScript subtraction: NaN absorbs. -/
def jsSub : JsNum → JsNum → JsNum
  | some a, some b => some (a.sub b)
  | _, _ => none

/-! ## Array.prototype.sort with a comparator

ECMAScript sorts are stable and a comparator result of NaN is treated as
+0 by SortCompare. The sort is modelled as a stable insertion sort over the
boolean relation "comparator result is not positive". -/

/-- `le x y` from a comparator: true when the comparator says `x` precedes
or ties `y` (NaN counts as a tie). -/
def cmpLe {α : Type} (cmp : α → α → JsNum) (a b : α) : Bool :=
  match cmp a b with
  | none => true
  | some q => DecNum.le q (DecNum.ofNat 0)

def insertLE {α : Type} (le : α → α → Bool) (x : α) : List α → List α
  | [] => [x]
  | y :: ys => if le x y then x :: y :: ys else y :: insertLE le x ys

def sortLE {α : Type} (le : α → α → Bool) : List α → List α
  | [] => []
  | x :: xs => insertLE le x (sortLE le xs)

/-- Model of `array.sort(cmp)`. -/
def jsSort {α : Type} (cmp : α → α → JsNum) (l : List α) : List α :=
  sortLE (cmpLe cmp) l

/-! ## JavaScript Map (string keys, insertion order) -/

/-- A `Map` is an association list in insertion order; `set` on a present
key updates the entry in place, otherwise appends. -/
def mapHas {α : Type} (m : List (String × α)) (k : String) : Bool :=
  m.any (fun p => p.1 == k)

def mapGet {α : Type} (m : List (String × α)) (k : String) : Option α :=
  (m.find? (fun p => p.1 == k)).map Prod.snd

def mapSet {α : Type} (m : List (String × α)) (k : String) (v : α) : List (String × α) :=
  if mapHas m k then m.map (fun p => if p.1 == k then (k, v) else p)
  else m ++ [(k, v)]

def mapValues {α : Type} (m : List (String × α)) : List α :=
  m.map Prod.snd

/-! ## Data model (`Vulnerability`, `Host` interfaces) -/

inductive Severity
  | Critical | High | Medium | Low | Info
deriving DecidableEq, Repr

structure Vulnerability where
  id : String
  pluginId : String
  title : String
  severity : Severity
  description : String
  solution : String
  cvss : String
  /-- `count?: number` — optional occurrence count. -/
  count : Option Nat
deriving DecidableEq, Repr

structure VulnBuckets where
  critical : List Vulnerability
  high : List Vulnerability
  medium : List Vulnerability
  low : List Vulnerability
  info : List Vulnerability
deriving DecidableEq, Repr

structure Host where
  ip : String
  hostname : String
  vulnerabilities : VulnBuckets
deriving DecidableEq, Repr

/-- JavaScript `count || 1`: undefined and 0 are falsy. -/
def countOr1 (c : Option Nat) : Nat :=
  match c with
  | some n => if n == 0 then 1 else n
  | none => 1

/-! ## mergeAndCountVulnerabilities (reportService.ts lines 189-212) -/

/-- Comparator of the bucket sort: descending `count || 1`, ties broken by
descending `parseFloat(cvss)`. -/
def vulnCompare (a b : Vulnerability) : JsNum :=
  if countOr1 b.count ≠ countOr1 a.count then
    some (DecNum.sub (DecNum.ofNat (countOr1 b.count)) (DecNum.ofNat (countOr1 a.count)))
  else jsSub (jsParseFloat b.cvss) (jsParseFloat a.cvss)

/-- One step of the merge loop over incoming findings: a present identity
bumps the kept entry's count, a new identity is inserted with count 1. -/
def mergeStep (m : List (String × Vulnerability)) (v : Vulnerability) :
    List (String × Vulnerability) :=
  match mapGet m v.pluginId with
  | some existingVuln =>
    mapSet m v.pluginId { existingVuln with count := some (countOr1 existingVuln.count + 1) }
  | none => mapSet m v.pluginId { v with count := some 1 }

def mergeAndCountVulnerabilities (existingVulns newVulns : List Vulnerability) : List Vulnerability :=
  let m := existingVulns.foldl (fun m v => mapSet m v.pluginId v) []
  let m := newVulns.foldl mergeStep m
  jsSort vulnCompare (mapValues m)

/-! ## mergeHosts (reportService.ts lines 127-187) -/

/-- `split(sep)` on a character list: the JavaScript split semantics for a
one-character separator (an empty string yields one empty field, a
separator at either end yields an empty field there). -/
def splitChars (sep : Char) : List Char → List (List Char)
  | [] => [[]]
  | c :: cs =>
    let r := splitChars sep cs
    if c == sep then [] :: r
    else
      match r with
      | [] => [[c]]
      | g :: gs => (c :: g) :: gs

/-- `ip.split(c).map(Number)` for the dot separator. -/
def ipSegments (ip : String) : List JsNum :=
  (splitChars (Char.ofNat 46) ip.toList).map (fun cs => jsNumber (String.mk cs))

/-- JavaScript `a !== b` on two possibly-undefined, possibly-NaN segment
reads (outer `none` is undefined; inner `none` is NaN). -/
def segNe : Option JsNum → Option JsNum → Bool
  | none, none => false
  | none, some _ => true
  | some _, none => true
  | some a, some b =>
    match a, b with
    | none, _ => true
    | _, none => true
    | some x, some y => !DecNum.beqVal x y

/-- JavaScript `a - b` on two segment reads; undefined or NaN gives NaN. -/
def segSub : Option JsNum → Option JsNum → JsNum
  | some (some x), some (some y) => some (x.sub y)
  | _, _ => none

/-- The host comparator: first index `i < 4` where segments differ strictly
(`!==`) decides by subtraction; otherwise 0. -/
def hostCompare (a b : Host) : JsNum :=
  let sa := ipSegments a.ip
  let sb := ipSegments b.ip
  match (List.range 4).find? (fun i => segNe sa[i]? sb[i]?) with
  | some i => segSub sa[i]? sb[i]?
  | none => some (DecNum.ofNat 0)

/-- Merge one incoming host into the accumulating host map. The `[...]`
spreads of the source are defensive array copies, the identity on value
data. -/
def mergeHostInto (hostMap : List (String × Host)) (host : Host) : List (String × Host) :=
  match mapGet hostMap host.ip with
  | some existingHost =>
    mapSet hostMap host.ip
      { existingHost with vulnerabilities :=
        { critical := mergeAndCountVulnerabilities existingHost.vulnerabilities.critical host.vulnerabilities.critical
          high := mergeAndCountVulnerabilities existingHost.vulnerabilities.high host.vulnerabilities.high
          medium := mergeAndCountVulnerabilities existingHost.vulnerabilities.medium host.vulnerabilities.medium
          low := mergeAndCountVulnerabilities existingHost.vulnerabilities.low host.vulnerabilities.low
          info := mergeAndCountVulnerabilities existingHost.vulnerabilities.info host.vulnerabilities.info } }
  | none => mapSet hostMap host.ip host

def mergeHosts (hostArrays : List (List Host)) : List Host :=
  let hostMap := hostArrays.foldl (fun m arr => arr.foldl mergeHostInto m) []
  jsSort hostCompare (mapValues hostMap)

/-! ## calculateVulnerabilityTotals (lines 214-232) -/

structure VulnerabilityTotals where
  critical : Nat
  high : Nat
  medium : Nat
  low : Nat
  info : Nat
deriving DecidableEq, Repr

def calculateVulnerabilityTotals (hosts : List Host) : VulnerabilityTotals :=
  hosts.foldl (fun t h =>
    { critical := t.critical + h.vulnerabilities.critical.length
      high := t.high + h.vulnerabilities.high.length
      medium := t.medium + h.vulnerabilities.medium.length
      low := t.low + h.vulnerabilities.low.length
      info := t.info + h.vulnerabilities.info.length }) ⟨0, 0, 0, 0, 0⟩

/-! ## Parsed XML model (shape produced by fast-xml-parser as the source
reads it: attributes carry a reserved name marker, element text a reserved
text key; a node that can repeat is absent, a bare object, or an array) -/

/-- `Array.isArray(x) ? x : x ? [x] : []` input shapes. -/
inductive OneOrMany (α : Type)
  | missing
  | one (a : α)
  | many (l : List α)
deriving DecidableEq, Repr

def OneOrMany.toList {α : Type} : OneOrMany α → List α
  | .missing => []
  | .one a => [a]
  | .many l => l

/-- A `<tag>` entry under `HostProperties`: its name attribute and its text. -/
structure HostTag where
  nameAttr : String
  text : String
deriving DecidableEq, Repr

/-- `reportHost.HostProperties?.tag || []`: the tag list may be absent
(either level missing), a single bare object, or an array. -/
inductive TagField
  | missing
  | one (t : HostTag)
  | many (ts : List HostTag)
deriving DecidableEq, Repr

/-- One `<ReportItem>`: the attributes and child elements the source reads.
`none` models an absent attribute or child. -/
structure ReportItemXml where
  severityAttr : Option String
  idAttr : Option String
  pluginIDAttr : Option String
  pluginNameAttr : Option String
  description : Option String
  solution : Option String
  cvss_base_score : Option String
  cvss_vector : Option String
deriving DecidableEq, Repr

structure ReportHostXml where
  nameAttr : Option String
  hostProperties : TagField
  reportItem : OneOrMany ReportItemXml
deriving DecidableEq, Repr

structure ReportXml where
  reportHost : OneOrMany ReportHostXml
deriving DecidableEq, Repr

structure ClientDataXml where
  report : Option ReportXml
deriving DecidableEq, Repr

/-- The whole parse result; `NessusClientData_v2`, `Report` and `ReportHost`
may each be absent (`result?.X || {}` chains). -/
structure NessusXml where
  clientData : Option ClientDataXml
deriving DecidableEq, Repr

/-! ## parseNessusFile (lines 27-125) -/

/-- JavaScript `a || d` on an optional string attribute: an absent attribute
(undefined) and the empty string are both falsy and select the default. -/
def orJS (a : Option String) (d : String) : String :=
  match a with
  | none => d
  | some s => if s == "" then d else s

/-- The severity switch (lines 80-97): `parseInt(item severity attr || 0)`
then 4→Critical, 3→High, 2→Medium, 1→Low, default→Info. -/
def severityCategory (severityAttr : Option String) : Severity :=
  let severityValue := jsParseInt (orJS severityAttr "0")
  if severityValue == some 4 then .Critical
  else if severityValue == some 3 then .High
  else if severityValue == some 2 then .Medium
  else if severityValue == some 1 then .Low
  else .Info

/-- ip extraction (lines 50-58). Array shape: find the tag named host-ip and
take its text, falling back to the hostname when the tag is missing or its
text is falsy; absent tag list behaves like an empty array. Single-object
shape: the text exactly when the name matches, else the hostname. -/
def hostIp (tf : TagField) (hostname : String) : String :=
  match tf with
  | .missing => hostname
  | .many ts =>
    match ts.find? (fun t => t.nameAttr == "host-ip") with
    | some t => if t.text == "" then hostname else t.text
    | none => hostname
  | .one t => if t.nameAttr == "host-ip" then t.text else hostname

/-- One `ReportItem` to one `Vulnerability` (lines 78-108). `rng` supplies
the `Math.random().toString(36).substring(2, 10)` fallback ids; `ctr` counts
how many random ids have been drawn so far and is bumped on each draw. -/
def parseReportItem (rng : Nat → String) (ctr : Nat) (item : ReportItemXml) : Vulnerability × Nat :=
  let sev := severityCategory item.severityAttr
  let idDraw : String × Nat :=
    match item.idAttr with
    | some s => if s == "" then (rng ctr, ctr + 1) else (s, ctr)
    | none => (rng ctr, ctr + 1)
  ({ id := idDraw.1
     pluginId := orJS item.pluginIDAttr ""
     title := orJS item.pluginNameAttr "Unknown Vulnerability"
     severity := sev
     description := orJS item.description "No description provided"
     solution := orJS item.solution "No solution provided"
     cvss := orJS item.cvss_base_score (orJS item.cvss_vector "0.0")
     count := some 1 }, idDraw.2)

def emptyBuckets : VulnBuckets := ⟨[], [], [], [], []⟩

/-- `vulnerabilities[severityCategory.toLowerCase()].push(vulnerability)`. -/
def pushBucket (b : VulnBuckets) (v : Vulnerability) : VulnBuckets :=
  match v.severity with
  | .Critical => { b with critical := b.critical ++ [v] }
  | .High => { b with high := b.high ++ [v] }
  | .Medium => { b with medium := b.medium ++ [v] }
  | .Low => { b with low := b.low ++ [v] }
  | .Info => { b with info := b.info ++ [v] }

/-- One `ReportHost` node to one `Host` (lines 47-118). -/
def parseReportHost (rng : Nat → String) (ctr : Nat) (rh : ReportHostXml) : Host × Nat :=
  let hostname := orJS rh.nameAttr ""
  let ip := hostIp rh.hostProperties hostname
  let folded := rh.reportItem.toList.foldl
    (fun (acc : VulnBuckets × Nat) item =>
      let parsed := parseReportItem rng acc.2 item
      (pushBucket acc.1 parsed.1, parsed.2))
    (emptyBuckets, ctr)
  ({ ip := ip, hostname := hostname, vulnerabilities := folded.1 }, folded.2)

/-- The host loop over `result?.NessusClientData_v2 || {}` →
`.Report || {}` → normalized `ReportHost` list. -/
def extractHosts (rng : Nat → String) (ctr : Nat) (doc : NessusXml) : List Host × Nat :=
  let report := match doc.clientData with
    | some cd => cd.report
    | none => none
  let reportHosts := (match report with
    | some r => r.reportHost
    | none => .missing).toList
  reportHosts.foldl
    (fun (acc : List Host × Nat) rh =>
      let parsed := parseReportHost rng acc.2 rh
      (acc.1 ++ [parsed.1], parsed.2))
    ([], ctr)

/-- `parseNessusFile`: run the XML parser (abstract parameter `xmlParse`,
the fast-xml-parser call on the file content) inside the try block; any
parse exception is wrapped with the file name and re-thrown (lines
121-124). The extraction after a successful parse is total. -/
def parseNessusFile (xmlParse : String → Except String NessusXml) (rng : Nat → String)
    (ctr : Nat) (fileName content : String) : Except String (List Host × Nat) :=
  match xmlParse content with
  | .ok doc => .ok (extractHosts rng ctr doc)
  | .error e => .error ("Failed to parse " ++ fileName ++ ": " ++ e)

/-! ## Document synthesis (lines 234-518) -/

/-- The union-value string of a severity, as interpolated by the templates. -/
def Severity.label : Severity → String
  | .Critical => "Critical"
  | .High => "High"
  | .Medium => "Medium"
  | .Low => "Low"
  | .Info => "Info"

/-- The lowercase bucket key, as iterated by `severityOrder` (line 488). -/
def Severity.key : Severity → String
  | .Critical => "critical"
  | .High => "high"
  | .Medium => "medium"
  | .Low => "low"
  | .Info => "info"

def severityOrder : List Severity := [.Critical, .High, .Medium, .Low, .Info]

def bucketOf (h : Host) : Severity → List Vulnerability
  | .Critical => h.vulnerabilities.critical
  | .High => h.vulnerabilities.high
  | .Medium => h.vulnerabilities.medium
  | .Low => h.vulnerabilities.low
  | .Info => h.vulnerabilities.info

/-- getSeverityColor (lines 284-297). -/
def getSeverityColor (severity : String) : String :=
  let s := severity.toLower
  if s == "critical" then "#ea384c"
  else if s == "high" then "#f97316"
  else if s == "medium" then "#eab308"
  else if s == "low" then "#22c55e"
  else "#3b82f6"

/-- `${vuln.count ? <br>Total Occurrences: ... : empty}` (line 245):
0 and undefined are falsy. -/
def occurrencesLine (c : Option Nat) : String :=
  match c with
  | some n => if n == 0 then "" else "<br>Total Occurrences: " ++ toString n
  | none => ""

/-- generateVulnerabilitySection (lines 234-282). The heading number that is
rendered is `index + 1` for the passed `index`. -/
def generateVulnerabilitySection (vuln : Vulnerability) (index : Nat) : String :=
  "\n    <div class=\"vulnerability-section\">\n      <div class=\"vulnerability-table\">\n        <div class=\"vulnerability-header\">\n          <h2 class=\"vulnerability-title\">"
    ++ toString (index + 1) ++ ". " ++ vuln.title
    ++ "</h2>\n        </div>\n        \n        <div class=\"rating-row\">\n          <div class=\"rating-cell\" style=\"background-color: "
    ++ getSeverityColor vuln.severity.label
    ++ "\">\n            Risk Rating: " ++ vuln.severity.label
    ++ "\n            " ++ occurrencesLine vuln.count
    ++ "\n          </div>\n          <div class=\"cvss-cell\">CVSS Score: " ++ vuln.cvss
    ++ "</div>\n        </div>\n        \n        <table width=\"100%\">\n          <tr>\n            <td style=\"width: 30%; background-color: #f5f5f5;\"><strong>Plugin ID:</strong></td>\n            <td>"
    ++ vuln.pluginId
    ++ "</td>\n          </tr>\n          <tr>\n            <td style=\"width: 30%; background-color: #f5f5f5;\"><strong>Description:</strong></td>\n            <td>"
    ++ vuln.description
    ++ "</td>\n          </tr>\n          <tr>\n            <td style=\"width: 30%; background-color: #f5f5f5;\"><strong>Potential Impact:</strong></td>\n            <td>\n              <ul class=\"recommendation-list\">\n                <li>Unauthorized data access or manipulation</li>\n                <li>System compromise</li>\n                <li>Service disruption</li>\n                <li>Compliance violations</li>\n              </ul>\n            </td>\n          </tr>\n          <tr>\n            <td style=\"width: 30%; background-color: #f5f5f5;\"><strong>Remediation Steps:</strong></td>\n            <td>\n              <div class=\"recommendation-list\">\n                "
    ++ vuln.solution
    ++ "\n              </div>\n            </td>\n          </tr>\n        </table>\n      </div>\n    </div>\n  "

/-- The metadata record supplied by the form: company name, the rendered
`reportDate.toLocaleDateString()` text, preparer name. -/
structure CompanyDetails where
  companyName : String
  reportDateText : String
  preparedBy : String
deriving DecidableEq, Repr

/-- generateReportHeader (lines 299-411): the html head, style sheet and
cover block. Literal braces of the style sheet are written \x7b and \x7d. -/
def generateReportHeader (companyDetails : CompanyDetails) : String :=
  "\n    <html>\n    <head>\n    <style>\n      @page \x7b\n        margin: 2cm;\n      \x7d\n      body \x7b \n        font-family: Arial, sans-serif;\n        line-height: 1.6;\n        color: #1A1F2C;\n      \x7d\n      .header \x7b \n        text-align: center;\n        padding: 40px 20px;\n        border-bottom: 3px solid #1A1F2C;\n        margin-bottom: 40px;\n      \x7d\n      .vulnerability-section \x7b\n        page-break-before: always;\n        margin-top: 40px;\n      \x7d\n      .vulnerability-table \x7b\n        width: 100%;\n        border-collapse: collapse;\n        margin: 20px 0;\n        box-shadow: 0 4px 6px rgba(0, 0, 0, 0.1);\n      \x7d\n      .vulnerability-header \x7b\n        background-color: #f5f5f5;\n        padding: 20px;\n        border-bottom: 2px solid #1A1F2C;\n      \x7d\n      .vulnerability-title \x7b\n        font-size: 24px;\n        margin: 0;\n        color: #1A1F2C;\n      \x7d\n      .rating-row \x7b\n        display: grid;\n        grid-template-columns: 1fr 1fr;\n      \x7d\n      .rating-cell \x7b\n        color: white;\n        padding: 15px;\n        font-weight: bold;\n        text-align: center;\n      \x7d\n      .cvss-cell \x7b\n        padding: 15px;\n        background-color: #f5f5f5;\n        text-align: center;\n        font-weight: bold;\n      \x7d\n      td \x7b\n        padding: 15px;\n        border: 1px solid #ddd;\n      \x7d\n      .severity-group \x7b\n        page-break-before: always;\n      \x7d\n      .severity-header \x7b\n        font-size: 28px;\n        color: #1A1F2C;\n        margin: 40px 0;\n        padding: 20px;\n        background-color: #f5f5f5;\n        border-left: 5px solid #1A1F2C;\n      \x7d\n      .executive-summary \x7b\n        margin: 40px 0;\n        padding: 30px;\n        background-color: #f8f9fa;\n        border-radius: 8px;\n      \x7d\n      .summary-table \x7b\n        width: 100%;\n        border-collapse: collapse;\n        margin: 20px 0;\n        box-shadow: 0 4px 6px rgba(0, 0, 0, 0.1);\n      \x7d\n      .summary-table th,\n      .summary-table td \x7b\n        padding: 15px;\n        border: 1px solid #ddd;\n        text-align: left;\n      \x7d\n      .summary-table th \x7b\n        background-color: #f5f5f5;\n        font-weight: bold;\n      \x7d\n      .recommendation-list \x7b\n        margin: 15px 0;\n        padding-left: 20px;\n      \x7d\n      .recommendation-list li \x7b\n        margin-bottom: 10px;\n        line-height: 1.6;\n      \x7d\n    </style>\n    </head>\n    <body>\n      <div class=\"header\">\n        <h1 style=\"font-size: 32px; margin-bottom: 10px;\">"
    ++ companyDetails.companyName
    ++ "</h1>\n        <h2 style=\"font-size: 24px; color: #666;\">Vulnerability Assessment Report</h2>\n        <p style=\"margin-top: 20px; color: #666;\">\n          Date: "
    ++ companyDetails.reportDateText
    ++ "<br>\n          Prepared By: " ++ companyDetails.preparedBy
    ++ "\n        </p>\n      </div>\n  "

/-- The executive summary block (lines 452-486). -/
def executiveSummary (mergedHosts : List Host) (totals : VulnerabilityTotals) : String :=
  "\n    <div class=\"executive-summary\">\n      <h2 style=\"color: #1A1F2C;\">EXECUTIVE SUMMARY</h2>\n      <table class=\"summary-table\">\n        <tr>\n          <th>Category</th>\n          <th>Count</th>\n        </tr>\n        <tr>\n          <td>Total Hosts Analyzed</td>\n          <td>"
    ++ toString mergedHosts.length
    ++ "</td>\n        </tr>\n        <tr style=\"background-color: #ea384c; color: white;\">\n          <td>Critical Vulnerabilities</td>\n          <td>"
    ++ toString totals.critical
    ++ "</td>\n        </tr>\n        <tr style=\"background-color: #f97316; color: white;\">\n          <td>High Vulnerabilities</td>\n          <td>"
    ++ toString totals.high
    ++ "</td>\n        </tr>\n        <tr style=\"background-color: #eab308; color: white;\">\n          <td>Medium Vulnerabilities</td>\n          <td>"
    ++ toString totals.medium
    ++ "</td>\n        </tr>\n        <tr style=\"background-color: #22c55e; color: white;\">\n          <td>Low Vulnerabilities</td>\n          <td>"
    ++ toString totals.low
    ++ "</td>\n        </tr>\n        <tr style=\"background-color: #3b82f6; color: white;\">\n          <td>Informational Findings</td>\n          <td>"
    ++ toString totals.info
    ++ "</td>\n        </tr>\n      </table>\n    </div>\n  "

/-- The severity-group div opener (lines 497-500). -/
def severityGroupHeader (sev : Severity) : String :=
  "\n        <div class=\"severity-group\">\n          <h2 class=\"severity-header\">"
    ++ sev.key.toUpper
    ++ " Severity Vulnerabilities</h2>\n      "

/-- The severity-section loop (lines 488-509): walk severities in order with
one global index that starts at 1 and advances per rendered finding; the
group div is emitted only for a non-empty severity. Returns the
accumulated markup and the final index. -/
def sectionsFold (mergedHosts : List Host) : String × Nat :=
  severityOrder.foldl
    (fun (acc : String × Nat) sev =>
      let severityVulns := mergedHosts.flatMap (fun h => bucketOf h sev)
      if severityVulns.length > 0 then
        let inner := severityVulns.foldl
          (fun (a : String × Nat) vuln =>
            (a.1 ++ generateVulnerabilitySection vuln a.2, a.2 + 1))
          (acc.1 ++ severityGroupHeader sev, acc.2)
        (inner.1 ++ "</div>", inner.2)
      else acc)
    ("", 1)

/-- The sequence of heading numbers the finding sections render, collected
by the same traversal as `sectionsFold`: `generateVulnerabilitySection`
prints `index + 1` for the global index it receives. -/
def findingNumbers (mergedHosts : List Host) : List Nat :=
  (severityOrder.foldl
    (fun (acc : List Nat × Nat) sev =>
      let severityVulns := mergedHosts.flatMap (fun h => bucketOf h sev)
      if severityVulns.length > 0 then
        severityVulns.foldl (fun (a : List Nat × Nat) _ => (a.1 ++ [a.2 + 1], a.2 + 1)) acc
      else acc)
    ([], 1)).1

/-- The per-file outcomes that survive the try/catch of the parse loop
(lines 421-436): failed files are logged and skipped, successes are pushed
in order. -/
def successes (outcomes : List (Except String (List Host))) : List (List Host) :=
  outcomes.filterMap (fun r =>
    match r with
    | .ok hosts => some hosts
    | .error _ => none)

/-- The body of `generateReport` after the parse loop (lines 438-517):
merge, totals, header, executive summary, severity sections, closing tags.
The returned string is the entire Blob content. -/
def generateReportContent (companyDetails : CompanyDetails)
    (outcomes : List (Except String (List Host))) : String :=
  let parsedHostArrays := successes outcomes
  let mergedHosts := mergeHosts parsedHostArrays
  let vulnerabilityTotals := calculateVulnerabilityTotals mergedHosts
  generateReportHeader companyDetails
    ++ executiveSummary mergedHosts vulnerabilityTotals
    ++ (sectionsFold mergedHosts).1
    ++ "</body></html>"

/-- The whole `generateReport` pipeline on (file name, file content) pairs:
each file is parsed inside try/catch with the random-id counter threaded
through in file order; the document is generated from the outcomes. -/
def runPipeline (xmlParse : String → Except String NessusXml) (rng : Nat → String)
    (companyDetails : CompanyDetails) (files : List (String × String)) : String :=
  let folded := files.foldl
    (fun (acc : List (Except String (List Host)) × Nat) f =>
      match parseNessusFile xmlParse rng acc.2 f.1 f.2 with
      | .ok parsed => (acc.1 ++ [.ok parsed.1], parsed.2)
      | .error e => (acc.1 ++ [.error e], acc.2))
    ([], 0)
  generateReportContent companyDetails folded.1

/-! ## Derived notions used by the verification -/

/-- Total findings the document renders, walking severities in order. -/
def documentFindingCount (hosts : List Host) : Nat :=
  (severityOrder.map (fun sev => (hosts.flatMap (fun h => bucketOf h sev)).length)).sum

/-- Erase the auxiliary `id` field of a finding. -/
def stripVuln (v : Vulnerability) : Vulnerability := { v with id := "" }

def stripBuckets (b : VulnBuckets) : VulnBuckets :=
  ⟨b.critical.map stripVuln, b.high.map stripVuln, b.medium.map stripVuln,
   b.low.map stripVuln, b.info.map stripVuln⟩

def stripHost (h : Host) : Host := { h with vulnerabilities := stripBuckets h.vulnerabilities }

def stripOutcome : Except String (List Host) → Except String (List Host)
  | .ok hosts => .ok (hosts.map stripHost)
  | .error e => .error e

/-- Map an association list over its values, keys unchanged. -/
def mapMapVal {α β : Type} (f : α → β) (m : List (String × α)) : List (String × β) :=
  m.map (fun p => (p.1, f p.2))

/-- The four numeric segments of a well-formed dotted-quad address, as
rational values. -/
def quadOf (ip : String) : Option (ℚ × ℚ × ℚ × ℚ) :=
  match ipSegments ip with
  | [some a, some b, some c, some d] => some (a.toRat, b.toRat, c.toRat, d.toRat)
  | _ => none

/-- The lexicographic reading of a quad. -/
def quadLex (p : ℚ × ℚ × ℚ × ℚ) : ℚ ×ₗ (ℚ ×ₗ (ℚ ×ₗ ℚ)) :=
  toLex (p.1, toLex (p.2.1, toLex (p.2.2.1, p.2.2.2)))

/-- Ascending numeric order on four dot-separated integer segments. -/
def quadLe (p q : ℚ × ℚ × ℚ × ℚ) : Prop := quadLex p ≤ quadLex q

/-- Numeric segment order between two hosts, reading absent quads as zero
(only ever used under a well-formedness hypothesis). -/
def hostQuadLe (a b : Host) : Prop :=
  quadLe ((quadOf a.ip).getD (0, 0, 0, 0)) ((quadOf b.ip).getD (0, 0, 0, 0))

/-- Pairwise-distinct finding identities within one bucket. -/
def bucketIdsNodup (l : List Vulnerability) : Prop :=
  (l.map (fun v => v.pluginId)).Nodup

/-- Pairwise-distinct finding identities in each of a host's five buckets. -/
def hostBucketsNodup (h : Host) : Prop :=
  bucketIdsNodup h.vulnerabilities.critical ∧ bucketIdsNodup h.vulnerabilities.high ∧
  bucketIdsNodup h.vulnerabilities.medium ∧ bucketIdsNodup h.vulnerabilities.low ∧
  bucketIdsNodup h.vulnerabilities.info

instance (l : List Vulnerability) : Decidable (bucketIdsNodup l) := by
  unfold bucketIdsNodup
  infer_instance

instance (h : Host) : Decidable (hostBucketsNodup h) := by
  unfold hostBucketsNodup
  infer_instance

/-- Key/value coherence of a vulnerability map: every entry is stored under
its finding identity, and keys are pairwise distinct. -/
def keyedByPluginId (m : List (String × Vulnerability)) : Prop :=
  (∀ p ∈ m, p.2.pluginId = p.1) ∧ (m.map Prod.fst).Nodup

/-- Key/value coherence of the host map: every host is stored under its
address. -/
def keyedByIp (m : List (String × Host)) : Prop :=
  ∀ p ∈ m, p.2.ip = p.1

/-! ## Concrete fixtures -/

def emptyXmlParse : String → Except String NessusXml := fun _ => .error "Invalid XML"

def rngFix : Nat → String := fun n => "rnd" ++ toString n

def cdFix : CompanyDetails :=
  { companyName := "Acme", reportDateText := "1/2/2025", preparedBy := "Tester" }

/-- File A of the round-trip scenario: host 10.0.0.5, Critical finding with
identity 19506 and score 7.5. -/
def vulnA : Vulnerability :=
  { id := "idA", pluginId := "19506", title := "Nessus Scan Information",
    severity := .Critical, description := "descA", solution := "solA",
    cvss := "7.5", count := some 1 }

/-- File B: same identity 19506, score 9.0, different text fields. -/
def vulnB : Vulnerability :=
  { id := "idB", pluginId := "19506", title := "Nessus Scan Information B",
    severity := .Critical, description := "descB", solution := "solB",
    cvss := "9.0", count := some 1 }

def hostA : Host :=
  { ip := "10.0.0.5", hostname := "serverA", vulnerabilities := { emptyBuckets with critical := [vulnA] } }

def hostB : Host :=
  { ip := "10.0.0.5", hostname := "serverB", vulnerabilities := { emptyBuckets with critical := [vulnB] } }

/-- A bare host with a given address and no findings. -/
def plainHost (ip : String) : Host := { ip := ip, hostname := ip, vulnerabilities := emptyBuckets }

def host1 : Host := plainHost "10.0.0.1"
def host2 : Host := plainHost "10.0.0.2"
def host10 : Host := plainHost "10.0.0.10"

/-- A host whose single-file critical bucket already carries a repeated
identity: both findings have pluginId 19506. -/
def dupHost : Host :=
  { ip := "10.0.0.7", hostname := "dup",
    vulnerabilities := { emptyBuckets with critical := [vulnA, { vulnA with id := "idA2", cvss := "6.0" }] } }

/-- A report item with no scanner-assigned identifiers at all. -/
def itemNoIds : ReportItemXml :=
  { severityAttr := some "4", idAttr := none, pluginIDAttr := none,
    pluginNameAttr := some "Mystery Finding", description := some "desc",
    solution := some "sol", cvss_base_score := some "5.0", cvss_vector := none }

def rhNoIds : ReportHostXml :=
  { nameAttr := some "10.0.0.5", hostProperties := .missing, reportItem := .one itemNoIds }

/-- The host list file A yields for `rhNoIds` (random counter starts at 0). -/
def fileHostsA : Host := (parseReportHost rngFix 0 rhNoIds).1

/-- The host list file B yields for the same item (counter continued). -/
def fileHostsB : Host := (parseReportHost rngFix 1 rhNoIds).1

/-- The merged host the round-trip scenario must produce. -/
def mergedHostAB : Host :=
  { ip := "10.0.0.5", hostname := "serverA",
    vulnerabilities := { emptyBuckets with critical := [{ vulnA with count := some 2 }] } }

/-- One-host fixture for the numbering check: a single Critical finding. -/
def hostNum : Host :=
  { ip := "10.0.0.9", hostname := "numbered",
    vulnerabilities := { emptyBuckets with critical := [vulnA] } }

/-! ## Generic lemmas about the sort and map models -/

theorem insertLE_perm {α : Type} (le : α → α → Bool) (x : α) :
    ∀ l : List α, (insertLE le x l).Perm (x :: l)
  | [] => List.Perm.refl _
  | y :: ys => by
    unfold insertLE
    by_cases h : le x y
    · simp [h]
    · simp only [h]
      simp only [Bool.false_eq_true, if_false]
      exact ((insertLE_perm le x ys).cons y).trans (List.Perm.swap x y ys)

theorem sortLE_perm {α : Type} (le : α → α → Bool) :
    ∀ l : List α, (sortLE le l).Perm l
  | [] => List.Perm.refl _
  | x :: xs =>
    (insertLE_perm le x (sortLE le xs)).trans ((sortLE_perm le xs).cons x)

theorem jsSort_perm {α : Type} (cmp : α → α → JsNum) (l : List α) :
    (jsSort cmp l).Perm l :=
  sortLE_perm (cmpLe cmp) l

theorem insertLE_pairwise {α : Type} (le : α → α → Bool) (x : α) :
    ∀ l : List α,
    (∀ a ∈ x :: l, ∀ b ∈ x :: l, le a b = true ∨ le b a = true) →
    (∀ a ∈ x :: l, ∀ b ∈ x :: l, ∀ c ∈ x :: l, le a b = true → le b c = true → le a c = true) →
    l.Pairwise (fun a b => le a b = true) →
    (insertLE le x l).Pairwise (fun a b => le a b = true)
  | [], _, _, _ => List.pairwise_singleton _ x
  | y :: ys, htot, htr, hp => by
    unfold insertLE
    by_cases h : le x y
    · simp only [h, if_true]
      refine List.Pairwise.cons ?_ hp
      intro z hz
      rcases List.mem_cons.mp hz with hz | hz
      · exact hz ▸ h
      · have hyz : le y z = true := (List.pairwise_cons.mp hp).1 z hz
        exact htr x (by simp) y (by simp) z (by simp [hz]) h hyz
    · simp only [h, Bool.false_eq_true, if_false]
      have hyx : le y x = true := by
        rcases htot x (by simp) y (by simp) with h1 | h1
        · exact absurd h1 h
        · exact h1
      have hsub : ∀ a ∈ x :: ys, a ∈ x :: y :: ys := by
        intro a ha
        rcases List.mem_cons.mp ha with ha | ha
        · simp [ha]
        · simp [ha]
      refine List.Pairwise.cons ?_ ?_
      · intro z hz
        have hz2 : z ∈ x :: ys := (insertLE_perm le x ys).mem_iff.mp hz
        rcases List.mem_cons.mp hz2 with hz2 | hz2
        · exact hz2 ▸ hyx
        · exact (List.pairwise_cons.mp hp).1 z hz2
      · refine insertLE_pairwise le x ys ?_ ?_ (List.pairwise_cons.mp hp).2
        · intro a ha b hb
          exact htot a (hsub a ha) b (hsub b hb)
        · intro a ha b hb c hc
          exact htr a (hsub a ha) b (hsub b hb) c (hsub c hc)

theorem sortLE_pairwise {α : Type} (le : α → α → Bool) :
    ∀ l : List α,
    (∀ a ∈ l, ∀ b ∈ l, le a b = true ∨ le b a = true) →
    (∀ a ∈ l, ∀ b ∈ l, ∀ c ∈ l, le a b = true → le b c = true → le a c = true) →
    (sortLE le l).Pairwise (fun a b => le a b = true)
  | [], _, _ => List.Pairwise.nil
  | x :: xs, htot, htr => by
    have hmem : ∀ a ∈ x :: sortLE le xs, a ∈ x :: xs := by
      intro a ha
      rcases List.mem_cons.mp ha with ha | ha
      · simp [ha]
      · exact List.mem_cons_of_mem x ((sortLE_perm le xs).mem_iff.mp ha)
    refine insertLE_pairwise le x (sortLE le xs) ?_ ?_ ?_
    · intro a ha b hb
      exact htot a (hmem a ha) b (hmem b hb)
    · intro a ha b hb c hc
      exact htr a (hmem a ha) b (hmem b hb) c (hmem c hc)
    · refine sortLE_pairwise le xs ?_ ?_
      · intro a ha b hb
        exact htot a (List.mem_cons_of_mem x ha) b (List.mem_cons_of_mem x hb)
      · intro a ha b hb c hc
        exact htr a (List.mem_cons_of_mem x ha) b (List.mem_cons_of_mem x hb)
          c (List.mem_cons_of_mem x hc)

theorem mapHas_mapMapVal {α β : Type} (f : α → β) (m : List (String × α)) (k : String) :
    mapHas (mapMapVal f m) k = mapHas m k := by
  induction m with
  | nil => rfl
  | cons p rest ih => simp [mapHas, mapMapVal] at ih ⊢; rw [ih]

theorem mapGet_mapMapVal {α β : Type} (f : α → β) (m : List (String × α)) (k : String) :
    mapGet (mapMapVal f m) k = (mapGet m k).map f := by
  induction m with
  | nil => rfl
  | cons p rest ih =>
    by_cases hk : (p.1 == k) = true
    · simp [mapGet, mapMapVal, List.find?_cons_of_pos, hk]
    · have h1 : mapGet (mapMapVal f (p :: rest)) k = mapGet (mapMapVal f rest) k := by
        simp only [mapMapVal, List.map_cons, mapGet]
        rw [List.find?_cons_of_neg]
        exact hk
      have h2 : mapGet (p :: rest) k = mapGet rest k := by
        simp only [mapGet]
        rw [List.find?_cons_of_neg]
        exact hk
      rw [h1, h2, ih]

theorem mapSet_mapMapVal {α β : Type} (f : α → β) (m : List (String × α)) (k : String) (v : α) :
    mapSet (mapMapVal f m) k (f v) = mapMapVal f (mapSet m k v) := by
  simp only [mapSet, mapHas_mapMapVal]
  by_cases h : mapHas m k
  · simp only [h, if_true, mapMapVal, List.map_map]
    refine List.map_congr_left ?_
    intro p _
    by_cases hk : p.1 == k <;> simp [hk, Function.comp]
  · simp [h, mapMapVal]

theorem mapValues_mapMapVal {α β : Type} (f : α → β) (m : List (String × α)) :
    mapValues (mapMapVal f m) = (mapValues m).map f := by
  simp [mapValues, mapMapVal, List.map_map, Function.comp]

/-! ## Report-content congruence helpers -/

theorem generateReportContent_congr (cd : CompanyDetails)
    (o1 o2 : List (Except String (List Host))) (h : successes o1 = successes o2) :
    generateReportContent cd o1 = generateReportContent cd o2 := by
  unfold generateReportContent
  rw [h]

theorem successes_map_ok (ls : List (List Host)) : successes (ls.map Except.ok) = ls := by
  induction ls with
  | nil => rfl
  | cons a t ih => simpa [successes] using ih

/-! ## Claim theorems -/

/-- C2: aggregating File A (host 10.0.0.5, one Critical finding with
identity 19506 and score 7.5) with File B (same address, same identity,
score 9.0) in order [A, B] yields exactly one host whose Critical bucket
holds exactly one finding with occurrenceCount 2 and File A's fields
(score 7.5), and the totals report a Critical total of 1. -/
theorem roundTripScenario :
    mergeHosts [[hostA], [hostB]] =
      [{ ip := "10.0.0.5", hostname := "serverA",
         vulnerabilities := { emptyBuckets with critical := [{ vulnA with count := some 2 }] } }] ∧
    calculateVulnerabilityTotals (mergeHosts [[hostA], [hostB]]) = ⟨1, 0, 0, 0, 0⟩ := by
  constructor
  · decide
  · decide

/-- C3 (counterexample): a host occurring in a single input file passes
through aggregation with its bucket copied verbatim, so a repeated
identity inside one file survives: `dupHost` has two Critical findings
with the same pluginId 19506, and the aggregated output still carries
both, violating the uniqueness invariant as stated. -/
theorem singleFileDupSurvives :
    mergeHosts [[dupHost]] = [dupHost] ∧
    ¬ bucketIdsNodup dupHost.vulnerabilities.critical := by
  constructor
  · decide
  · unfold bucketIdsNodup
    decide

/-- C4: the severity mapping is total and deterministic; 4→Critical,
3→High, 2→Medium, 1→Low; 0, a missing attribute, an empty or unparseable
value, and every ordinal ≥ 5 map to Info; every input yields exactly one
of the five categories and no error. -/
theorem severityMappingTotal :
    severityCategory (some "4") = .Critical ∧ severityCategory (some "3") = .High ∧
    severityCategory (some "2") = .Medium ∧ severityCategory (some "1") = .Low ∧
    severityCategory (some "0") = .Info ∧ severityCategory none = .Info ∧
    severityCategory (some "") = .Info ∧ severityCategory (some "unknown") = .Info ∧
    (∀ (attr : Option String) (v : Int), jsParseInt (orJS attr "0") = some v → 5 ≤ v →
        severityCategory attr = .Info) ∧
    (∀ attr : Option String, severityCategory attr = .Critical ∨ severityCategory attr = .High ∨
        severityCategory attr = .Medium ∨ severityCategory attr = .Low ∨
        severityCategory attr = .Info) := by
  refine ⟨by decide, by decide, by decide, by decide, by decide, by decide, by decide, by decide,
    ?_, ?_⟩
  · intro attr v h hv
    have h4 : (some v == some (4 : Int)) = false := by
      simp
      omega
    have h3 : (some v == some (3 : Int)) = false := by
      simp
      omega
    have h2 : (some v == some (2 : Int)) = false := by
      simp
      omega
    have h1 : (some v == some (1 : Int)) = false := by
      simp
      omega
    simp [severityCategory, h, h4, h3, h2, h1]
  · intro attr
    simp only [severityCategory]
    split_ifs <;> tauto

/-- C4 witness: the general ≥5 clause applied at ordinal 7. -/
theorem severityMappingTotal_witness :
    severityCategory (some "7") = .Info :=
  severityMappingTotal.2.2.2.2.2.2.2.2.1 (some "7") 7 (by decide) (by decide)

/-- C5: a parse failure of one file leaves the report exactly what the
remaining files produce; when no file parses (or none is supplied) the
pipeline still completes, over an empty aggregated host list with zero
totals in every severity. -/
theorem parseFailureIsolated :
    (∀ (cd : CompanyDetails) (xs ys : List (Except String (List Host))) (e : String),
        generateReportContent cd (xs ++ Except.error e :: ys) =
          generateReportContent cd (xs ++ ys)) ∧
    (∀ (cd : CompanyDetails) (outcomes : List (Except String (List Host))),
        successes outcomes = [] →
          generateReportContent cd outcomes = generateReportContent cd []) ∧
    mergeHosts [] = [] ∧
    calculateVulnerabilityTotals (mergeHosts []) = ⟨0, 0, 0, 0, 0⟩ := by
  refine ⟨?_, ?_, rfl, rfl⟩
  · intro cd xs ys e
    apply generateReportContent_congr
    simp [successes, List.filterMap_append]
  · intro cd outcomes h
    apply generateReportContent_congr
    exact h

/-- C5 witness: one failing file among two leaves the surviving file's
report; a batch of two failing files produces the empty-input report. -/
theorem parseFailureIsolated_witness :
    generateReportContent cdFix [Except.error "boom", Except.ok [hostA]] =
      generateReportContent cdFix [Except.ok [hostA]] ∧
    generateReportContent cdFix [Except.error "a", Except.error "b"] =
      generateReportContent cdFix [] :=
  ⟨parseFailureIsolated.1 cdFix [] [Except.ok [hostA]] "boom",
   parseFailureIsolated.2.1 cdFix [Except.error "a", Except.error "b"] (by decide)⟩

/-- C6 (counterexample): the pipeline's result is only the rendered
document; a batch whose single file failed to parse yields a result
identical to a batch whose single file parsed successfully (to zero
hosts), so the caller cannot read which files failed from the result —
the claimed distinguishability does not hold. -/
theorem partialFailureIndistinguishable :
    generateReportContent cdFix [Except.error "Failed to parse scan.nessus: Invalid XML"] =
      generateReportContent cdFix [Except.ok []] := rfl

/-- C6 (amended): the report content depends only on the successfully
parsed host lists; per-file failures leave no trace in the returned
value (they are only logged), so the result of a partially failed batch
equals that of the corresponding all-success batch. -/
theorem reportContentIgnoresFailures (cd : CompanyDetails)
    (outcomes : List (Except String (List Host))) :
    generateReportContent cd outcomes =
      generateReportContent cd ((successes outcomes).map Except.ok) := by
  apply generateReportContent_congr
  rw [successes_map_ok]

/-- C7: the normalizer fails exactly when the XML parser rejects the
content; any parse error is wrapped with the source file's name into a
"Failed to parse" error, and a successful parse always yields a host
list (the extraction itself is total). -/
theorem parseErrorWrapping (xmlParse : String → Except String NessusXml) (rng : Nat → String)
    (ctr : Nat) (fileName content : String) :
    (∀ e, xmlParse content = .error e →
        parseNessusFile xmlParse rng ctr fileName content =
          .error ("Failed to parse " ++ fileName ++ ": " ++ e)) ∧
    (∀ doc, xmlParse content = .ok doc →
        parseNessusFile xmlParse rng ctr fileName content = .ok (extractHosts rng ctr doc)) ∧
    ((∃ e, parseNessusFile xmlParse rng ctr fileName content = .error e) ↔
      (∃ e, xmlParse content = .error e)) := by
  refine ⟨?_, ?_, ?_⟩
  · intro e he
    simp [parseNessusFile, he]
  · intro doc hd
    simp [parseNessusFile, hd]
  · unfold parseNessusFile
    cases hx : xmlParse content <;> simp

/-- C7 witness: wrapping at a concrete failing parse. -/
theorem parseErrorWrapping_witness :
    parseNessusFile emptyXmlParse rngFix 0 "scan.nessus" "<bad" =
      .error ("Failed to parse " ++ "scan.nessus" ++ ": " ++ "Invalid XML") :=
  (parseErrorWrapping emptyXmlParse rngFix 0 "scan.nessus" "<bad").1 "Invalid XML" rfl

/-- C8 (counterexample): with no scanner-assigned identifiers at all, the
random opaque string lands in the auxiliary `id` field ("rnd0", "rnd1"),
while the de-duplication identity `pluginId` falls back to the empty
string; aggregating the two files therefore merges the two findings into
one entry with count 2 instead of keeping two distinct entries. -/
theorem missingIdentifierMerges :
    fileHostsA.vulnerabilities.critical.map (fun v => v.id) = ["rnd0"] ∧
    fileHostsA.vulnerabilities.critical.map (fun v => v.pluginId) = [""] ∧
    fileHostsB.vulnerabilities.critical.map (fun v => v.id) = ["rnd1"] ∧
    (mergeHosts [[fileHostsA], [fileHostsB]]).map
      (fun h => h.vulnerabilities.critical.length) = [1] ∧
    (mergeHosts [[fileHostsA], [fileHostsB]]).map
      (fun h => h.vulnerabilities.critical.map (fun v => v.count)) = [[some 2]] := by
  refine ⟨by decide, by decide, by decide, by decide, by decide⟩

/-- C8 (amended): a missing identifier makes normalization draw a fresh
random string into the `id` field only; the de-duplication key `pluginId`
falls back to the empty string, and two findings sharing a key merge into
one counted entry. -/
theorem missingIdentifierFallback (rng : Nat → String) (ctr : Nat) (item : ReportItemXml)
    (hpid : item.pluginIDAttr = none) :
    (parseReportItem rng ctr item).1.pluginId = "" ∧
    (item.idAttr = none → (parseReportItem rng ctr item).1.id = rng ctr) ∧
    (∀ v w : Vulnerability, v.pluginId = w.pluginId →
        mergeAndCountVulnerabilities [v] [w] =
          [{ v with count := some (countOr1 v.count + 1) }]) := by
  refine ⟨?_, ?_, ?_⟩
  · simp [parseReportItem, hpid, orJS]
  · intro hid
    simp [parseReportItem, hid]
  · intro v w hvw
    simp [mergeAndCountVulnerabilities, mergeStep, mapSet, mapHas, mapGet, mapValues, jsSort,
      sortLE, insertLE, hvw]

/-- C8 witness: the fallback at the concrete identifier-less item and the
merge collapse at the concrete findings of the round-trip scenario. -/
theorem missingIdentifierFallback_witness :
    (parseReportItem rngFix 0 itemNoIds).1.pluginId = "" ∧
    (parseReportItem rngFix 0 itemNoIds).1.id = rngFix 0 ∧
    mergeAndCountVulnerabilities [vulnA] [vulnB] = [{ vulnA with count := some 2 }] := by
  have h := missingIdentifierFallback rngFix 0 itemNoIds (by decide)
  refine ⟨h.1, h.2.1 (by decide), ?_⟩
  have h3 := h.2.2 vulnA vulnB (by decide)
  rw [h3]
  decide

/-! ## Finding-number lemmas (claim on document numbering) -/

theorem numbersFoldInner (l : List Vulnerability) (nums : List Nat) (i : Nat) :
    l.foldl (fun (a : List Nat × Nat) _ => (a.1 ++ [a.2 + 1], a.2 + 1)) (nums, i)
      = (nums ++ List.range' (i + 1) l.length, i + l.length) := by
  induction l generalizing nums i with
  | nil => simp
  | cons x xs ih =>
    simp only [List.foldl_cons, List.length_cons]
    rw [ih]
    have h1 : (nums ++ [i + 1]) ++ List.range' (i + 1 + 1) xs.length
        = nums ++ List.range' (i + 1) (xs.length + 1) := by
      rw [List.append_assoc]
      congr 1
    rw [h1]
    have h3 : i + 1 + xs.length = i + (xs.length + 1) := by omega
    rw [h3]

/-- One severity step of the numbering fold (the empty-bucket guard of the
source changes nothing for the collected numbers). -/
theorem numbersStep (hosts : List Host) (sev : Severity) (acc : List Nat × Nat) :
    (if (hosts.flatMap (fun h => bucketOf h sev)).length > 0
     then (hosts.flatMap (fun h => bucketOf h sev)).foldl
        (fun (a : List Nat × Nat) _ => (a.1 ++ [a.2 + 1], a.2 + 1)) acc
     else acc)
    = (acc.1 ++ List.range' (acc.2 + 1) (hosts.flatMap (fun h => bucketOf h sev)).length,
       acc.2 + (hosts.flatMap (fun h => bucketOf h sev)).length) := by
  by_cases h : (hosts.flatMap (fun h => bucketOf h sev)).length > 0
  · simp only [h, if_true]
    rw [show acc = (acc.1, acc.2) from rfl, numbersFoldInner]
  · have h0 : (hosts.flatMap (fun h => bucketOf h sev)).length = 0 := by omega
    simp [h, h0]

theorem numbersFoldAll (hosts : List Host) :
    ∀ (sevs : List Severity) (nums : List Nat) (i : Nat),
    sevs.foldl
      (fun (acc : List Nat × Nat) sev =>
        let severityVulns := hosts.flatMap (fun h => bucketOf h sev)
        if severityVulns.length > 0 then
          severityVulns.foldl (fun (a : List Nat × Nat) _ => (a.1 ++ [a.2 + 1], a.2 + 1)) acc
        else acc)
      (nums, i)
    = (nums ++ List.range' (i + 1)
        ((sevs.map (fun sev => (hosts.flatMap (fun h => bucketOf h sev)).length)).sum),
       i + (sevs.map (fun sev => (hosts.flatMap (fun h => bucketOf h sev)).length)).sum)
  | [], nums, i => by simp
  | sev :: rest, nums, i => by
    simp only [List.foldl_cons, List.map_cons, List.sum_cons]
    rw [numbersStep hosts sev (nums, i)]
    rw [numbersFoldAll hosts rest]
    refine Prod.ext ?_ ?_
    · show (nums ++ List.range' (i + 1) (hosts.flatMap (fun h => bucketOf h sev)).length)
          ++ List.range' (i + (hosts.flatMap (fun h => bucketOf h sev)).length + 1) _
        = nums ++ List.range' (i + 1) _
      rw [List.append_assoc]
      congr 1
      have := List.range'_append_1 (i + 1) (hosts.flatMap (fun h => bucketOf h sev)).length
        ((rest.map (fun sev => (hosts.flatMap (fun h => bucketOf h sev)).length)).sum)
      rw [show i + (hosts.flatMap (fun h => bucketOf h sev)).length + 1
          = i + 1 + (hosts.flatMap (fun h => bucketOf h sev)).length by omega]
      rw [this]
      congr 1
      omega
    · show i + (hosts.flatMap (fun h => bucketOf h sev)).length + _ = i + _
      omega

/-- The document's heading numbers are the gap-free run starting at 2. -/
theorem findingNumbers_eq_range (hosts : List Host) :
    findingNumbers hosts = List.range' 2 (documentFindingCount hosts) := by
  unfold findingNumbers documentFindingCount
  rw [numbersFoldAll hosts severityOrder [] 1]
  simp

/-- C1: the heading numbers of the synthesized document form the strictly
increasing, gap-free run 2, 3, … — `generateVulnerabilitySection` renders
`index + 1` while the global index starts at 1, so the first rendered
finding bears the number 2, not 1 as specified; at the one-finding input
the single rendered heading number is 2. -/
theorem findingNumberingStartsAtTwo :
    (∀ hosts : List Host, findingNumbers hosts = List.range' 2 (documentFindingCount hosts)) ∧
    findingNumbers (mergeHosts [[hostNum]]) = [2] := by
  refine ⟨findingNumbers_eq_range, ?_⟩
  decide

/-! ## Identity-distinctness lemmas (aggregation invariant) -/

theorem mapSet_mem {α : Type} (m : List (String × α)) (k : String) (v : α) (q : String × α)
    (hq : q ∈ mapSet m k v) : q = (k, v) ∨ q ∈ m := by
  unfold mapSet at hq
  by_cases h : mapHas m k
  · simp only [h, if_true] at hq
    obtain ⟨p, hp, hpq⟩ := List.mem_map.mp hq
    by_cases hk : (p.1 == k) = true
    · simp [hk] at hpq
      exact Or.inl hpq.symm
    · simp [hk] at hpq
      exact Or.inr (hpq ▸ hp)
  · simp only [h, Bool.false_eq_true, if_false, List.mem_append, List.mem_singleton] at hq
    tauto

theorem mapGet_mem {α : Type} (m : List (String × α)) (k : String) (v : α)
    (h : mapGet m k = some v) : (k, v) ∈ m := by
  unfold mapGet at h
  obtain ⟨p, hp, hpv⟩ := Option.map_eq_some'.mp h
  have hmem := List.mem_of_find?_eq_some hp
  have hbeq := List.find?_some hp
  have hkey : p.1 = k := by simpa using hbeq
  have : p = (k, v) := by
    cases p
    simp_all
  exact this ▸ hmem

theorem mapSet_keys_of_has {α : Type} (m : List (String × α)) (k : String) (v : α)
    (h : mapHas m k = true) : (mapSet m k v).map Prod.fst = m.map Prod.fst := by
  unfold mapSet
  simp only [h, if_true, List.map_map]
  refine List.map_congr_left ?_
  intro p _
  by_cases hk : (p.1 == k) = true
  · simp only [Function.comp, hk, if_true]
    exact (eq_of_beq hk).symm
  · simp [Function.comp, hk]

theorem mapSet_keys_of_not_has {α : Type} (m : List (String × α)) (k : String) (v : α)
    (h : mapHas m k = false) : (mapSet m k v).map Prod.fst = m.map Prod.fst ++ [k] := by
  unfold mapSet
  simp [h]

theorem not_mem_keys_of_not_has {α : Type} (m : List (String × α)) (k : String)
    (h : mapHas m k = false) : k ∉ m.map Prod.fst := by
  intro hmem
  obtain ⟨p, hp, hpk⟩ := List.mem_map.mp hmem
  have : mapHas m k = true := by
    unfold mapHas
    exact List.any_eq_true.mpr ⟨p, hp, by simp [hpk]⟩
  simp [this] at h

theorem keys_nodup_mapSet {α : Type} (m : List (String × α)) (k : String) (v : α)
    (h : (m.map Prod.fst).Nodup) : ((mapSet m k v).map Prod.fst).Nodup := by
  by_cases hk : mapHas m k
  · rw [mapSet_keys_of_has m k v hk]
    exact h
  · rw [mapSet_keys_of_not_has m k v (by simpa using hk)]
    refine List.nodup_append.mpr ⟨h, List.nodup_singleton k, ?_⟩
    intro a ha hb
    have : a = k := by simpa using hb
    exact not_mem_keys_of_not_has m k (by simpa using hk) (this ▸ ha)

theorem keyedByPluginId_mapSet (m : List (String × Vulnerability)) (k : String)
    (v : Vulnerability) (hkv : v.pluginId = k) (h : keyedByPluginId m) :
    keyedByPluginId (mapSet m k v) := by
  refine ⟨?_, keys_nodup_mapSet m k v h.2⟩
  intro p hp
  rcases mapSet_mem m k v p hp with hp | hp
  · rw [hp]
    exact hkv
  · exact h.1 p hp

theorem keyedByPluginId_seedFold (vulns : List Vulnerability) :
    ∀ m, keyedByPluginId m →
      keyedByPluginId (vulns.foldl (fun m v => mapSet m v.pluginId v) m) := by
  induction vulns with
  | nil => intro m h; exact h
  | cons v rest ih =>
    intro m h
    exact ih _ (keyedByPluginId_mapSet m v.pluginId v rfl h)

theorem keyedByPluginId_newFold (vulns : List Vulnerability) :
    ∀ m, keyedByPluginId m → keyedByPluginId (vulns.foldl mergeStep m) := by
  induction vulns with
  | nil => intro m h; exact h
  | cons v rest ih =>
    intro m h
    refine ih _ ?_
    unfold mergeStep
    cases hg : mapGet m v.pluginId with
    | some ev =>
      have hev : ev.pluginId = v.pluginId := h.1 (v.pluginId, ev) (mapGet_mem m v.pluginId ev hg)
      exact keyedByPluginId_mapSet m v.pluginId _ hev h
    | none =>
      exact keyedByPluginId_mapSet m v.pluginId _ rfl h

theorem mapValues_pluginIds (m : List (String × Vulnerability))
    (h : ∀ p ∈ m, p.2.pluginId = p.1) :
    (mapValues m).map (fun v => v.pluginId) = m.map Prod.fst := by
  unfold mapValues
  rw [List.map_map]
  exact List.map_congr_left (fun p hp => h p hp)

/-- The per-bucket merge always returns pairwise-distinct identities,
whatever its inputs: the accumulating map is keyed by pluginId. -/
theorem mergeAndCount_nodup (e n : List Vulnerability) :
    bucketIdsNodup (mergeAndCountVulnerabilities e n) := by
  unfold bucketIdsNodup mergeAndCountVulnerabilities
  have h0 : keyedByPluginId ([] : List (String × Vulnerability)) := by
    exact ⟨by simp, List.nodup_nil⟩
  have h1 := keyedByPluginId_seedFold e [] h0
  have h2 := keyedByPluginId_newFold n _ h1
  set m2 := n.foldl _ (e.foldl (fun m v => mapSet m v.pluginId v) []) with hm2
  have hids : (mapValues m2).map (fun v => v.pluginId) = m2.map Prod.fst :=
    mapValues_pluginIds m2 h2.1
  have hpm := (jsSort_perm vulnCompare (mapValues m2)).map (fun v => v.pluginId)
  rw [List.Perm.nodup_iff hpm, hids]
  exact h2.2

theorem keyedByIp_mapSet (m : List (String × Host)) (k : String) (v : Host)
    (hkv : v.ip = k) (h : keyedByIp m) : keyedByIp (mapSet m k v) := by
  intro p hp
  rcases mapSet_mem m k v p hp with hp | hp
  · rw [hp]
    exact hkv
  · exact h p hp

theorem mergeHostInto_inv (m : List (String × Host)) (host : Host)
    (hk : keyedByIp m) (hv : ∀ p ∈ m, hostBucketsNodup p.2) (hh : hostBucketsNodup host) :
    keyedByIp (mergeHostInto m host) ∧ ∀ p ∈ mergeHostInto m host, hostBucketsNodup p.2 := by
  unfold mergeHostInto
  cases hg : mapGet m host.ip with
  | some ex =>
    have hex : ex.ip = host.ip := hk (host.ip, ex) (mapGet_mem m host.ip ex hg)
    constructor
    · exact keyedByIp_mapSet m host.ip _ hex hk
    · intro p hp
      rcases mapSet_mem m host.ip _ p hp with hp | hp
      · rw [hp]
        exact ⟨mergeAndCount_nodup _ _, mergeAndCount_nodup _ _, mergeAndCount_nodup _ _,
          mergeAndCount_nodup _ _, mergeAndCount_nodup _ _⟩
      · exact hv p hp
  | none =>
    constructor
    · exact keyedByIp_mapSet m host.ip host rfl hk
    · intro p hp
      rcases mapSet_mem m host.ip host p hp with hp | hp
      · rw [hp]
        exact hh
      · exact hv p hp

theorem hostFold_inv (arr : List Host) :
    ∀ m, keyedByIp m → (∀ p ∈ m, hostBucketsNodup p.2) → (∀ h ∈ arr, hostBucketsNodup h) →
      keyedByIp (arr.foldl mergeHostInto m) ∧
        ∀ p ∈ arr.foldl mergeHostInto m, hostBucketsNodup p.2 := by
  induction arr with
  | nil => intro m hk hv _; exact ⟨hk, hv⟩
  | cons h rest ih =>
    intro m hk hv hin
    have step := mergeHostInto_inv m h hk hv (hin h (by simp))
    exact ih _ step.1 step.2 (fun x hx => hin x (by simp [hx]))

theorem arraysFold_inv (hostArrays : List (List Host)) :
    ∀ m, keyedByIp m → (∀ p ∈ m, hostBucketsNodup p.2) →
      (∀ arr ∈ hostArrays, ∀ h ∈ arr, hostBucketsNodup h) →
      keyedByIp (hostArrays.foldl (fun m arr => arr.foldl mergeHostInto m) m) ∧
        ∀ p ∈ hostArrays.foldl (fun m arr => arr.foldl mergeHostInto m) m,
          hostBucketsNodup p.2 := by
  induction hostArrays with
  | nil => intro m hk hv _; exact ⟨hk, hv⟩
  | cons arr rest ih =>
    intro m hk hv hin
    have step := hostFold_inv arr m hk hv (hin arr (by simp))
    exact ih _ step.1 step.2 (fun a ha x hx => hin a (by simp [ha]) x hx)

/-- C3 (amended): provided every input host's buckets already carry
pairwise-distinct identities, every aggregated host does too; a merged
bucket is distinct unconditionally (it is rebuilt through the
pluginId-keyed map), while a host occurring once passes its input bucket
through unchanged. -/
theorem aggregationIdentitiesDistinct (hostArrays : List (List Host))
    (hin : ∀ arr ∈ hostArrays, ∀ h ∈ arr, hostBucketsNodup h) :
    ∀ h ∈ mergeHosts hostArrays, hostBucketsNodup h := by
  intro h hmem
  unfold mergeHosts at hmem
  have hperm := jsSort_perm hostCompare
    (mapValues (hostArrays.foldl (fun m arr => arr.foldl mergeHostInto m) []))
  have hmem2 := hperm.mem_iff.mp hmem
  obtain ⟨p, hp, hph⟩ := List.mem_map.mp hmem2
  have hinv := arraysFold_inv hostArrays [] (by intro p hp; cases hp) (by intro p hp; cases hp) hin
  exact hph ▸ hinv.2 p hp

/-- C3 witness: the aggregated round-trip host has distinct identities. -/
theorem aggregationIdentitiesDistinct_witness :
    hostBucketsNodup mergedHostAB :=
  aggregationIdentitiesDistinct [[hostA], [hostB]] (by decide) mergedHostAB (by decide)

/-! ## Host-ordering lemmas (dotted-quad numeric sort) -/

theorem pow10_pos (n : Nat) : (0 : Int) < pow10 n := by
  induction n with
  | zero => decide
  | succ k ih =>
    unfold pow10
    exact mul_pos (by decide) ih

theorem pow10_add (m n : Nat) : pow10 (m + n) = pow10 m * pow10 n := by
  induction m with
  | zero => simp [pow10]
  | succ k ih =>
    have hs : k + 1 + n = (k + n) + 1 := by omega
    rw [hs, show pow10 ((k + n) + 1) = 10 * pow10 (k + n) from rfl, ih,
      show pow10 (k + 1) = 10 * pow10 k from rfl]
    ring

theorem pow10_cast_pos (n : Nat) : (0 : ℚ) < ((pow10 n : Int) : ℚ) := by
  exact_mod_cast pow10_pos n

theorem DecNum.le_iff (a b : DecNum) : DecNum.le a b = true ↔ a.toRat ≤ b.toRat := by
  unfold DecNum.le DecNum.toRat
  rw [div_le_div_iff₀ (pow10_cast_pos a.scale) (pow10_cast_pos b.scale)]
  rw [decide_eq_true_eq, ← Int.cast_mul, ← Int.cast_mul, Int.cast_le]

theorem DecNum.beqVal_iff (a b : DecNum) : DecNum.beqVal a b = true ↔ a.toRat = b.toRat := by
  unfold DecNum.beqVal DecNum.toRat
  rw [div_eq_div_iff (ne_of_gt (pow10_cast_pos a.scale)) (ne_of_gt (pow10_cast_pos b.scale))]
  rw [beq_iff_eq, ← Int.cast_mul, ← Int.cast_mul, Int.cast_inj]

theorem DecNum.beqVal_true_of_eq (a b : DecNum) (h : a.toRat = b.toRat) :
    DecNum.beqVal a b = true :=
  (DecNum.beqVal_iff a b).mpr h

theorem DecNum.beqVal_false_of_ne (a b : DecNum) (h : a.toRat ≠ b.toRat) :
    DecNum.beqVal a b = false := by
  cases hc : DecNum.beqVal a b
  · rfl
  · exact absurd ((DecNum.beqVal_iff a b).mp hc) h

theorem DecNum.sub_toRat (a b : DecNum) : (a.sub b).toRat = a.toRat - b.toRat := by
  unfold DecNum.sub DecNum.toRat
  have hadd : ((pow10 (a.scale + b.scale) : Int) : ℚ)
      = ((pow10 a.scale : Int) : ℚ) * ((pow10 b.scale : Int) : ℚ) := by
    rw [pow10_add]
    push_cast
    ring
  simp only [hadd]
  have pa := ne_of_gt (pow10_cast_pos a.scale)
  have pb := ne_of_gt (pow10_cast_pos b.scale)
  push_cast
  field_simp
  ring

theorem DecNum.ofNat_toRat (n : Nat) : (DecNum.ofNat n).toRat = (n : ℚ) := by
  unfold DecNum.ofNat DecNum.toRat
  simp [pow10]

/-- The comparator result is the value comparison of differences. -/
theorem DecNum.le_zero_iff (a b : DecNum) :
    DecNum.le (a.sub b) (DecNum.ofNat 0) = true ↔ a.toRat ≤ b.toRat := by
  rw [DecNum.le_iff, DecNum.sub_toRat, DecNum.ofNat_toRat]
  rw [show ((0 : Nat) : ℚ) = 0 from rfl, sub_nonpos]

theorem ipSegments_of_quad (ip : String) (q : ℚ × ℚ × ℚ × ℚ) (h : quadOf ip = some q) :
    ∃ u1 u2 u3 u4 : DecNum,
      ipSegments ip = [some u1, some u2, some u3, some u4] ∧
      q = (u1.toRat, u2.toRat, u3.toRat, u4.toRat) := by
  unfold quadOf at h
  split at h
  · next a b c d heq =>
    cases h
    exact ⟨a, b, c, d, heq, rfl⟩
  · cases h

theorem quadLe_total (p q : ℚ × ℚ × ℚ × ℚ) : quadLe p q ∨ quadLe q p :=
  le_total (quadLex p) (quadLex q)

theorem quadLe_trans (p q r : ℚ × ℚ × ℚ × ℚ) (h1 : quadLe p q) (h2 : quadLe q r) :
    quadLe p r :=
  le_trans h1 h2

/-- Unfolded description of `quadLe`. -/
theorem quadLe_iff (p q : ℚ × ℚ × ℚ × ℚ) :
    quadLe p q ↔ p.1 < q.1 ∨ (p.1 = q.1 ∧ (p.2.1 < q.2.1 ∨ (p.2.1 = q.2.1 ∧
      (p.2.2.1 < q.2.2.1 ∨ (p.2.2.1 = q.2.2.1 ∧ p.2.2.2 ≤ q.2.2.2))))) := by
  unfold quadLe quadLex
  rw [Prod.Lex.le_iff, Prod.Lex.le_iff, Prod.Lex.le_iff]

/-- For two well-formed dotted-quad addresses, the source's comparator
orders hosts exactly as the lexicographic numeric order of the four
segments. -/
theorem cmpLe_hostCompare_iff (a b : Host) (qa qb : ℚ × ℚ × ℚ × ℚ)
    (ha : quadOf a.ip = some qa) (hb : quadOf b.ip = some qb) :
    cmpLe hostCompare a b = true ↔ quadLe qa qb := by
  obtain ⟨u1, u2, u3, u4, hsa, hqa⟩ := ipSegments_of_quad a.ip qa ha
  obtain ⟨v1, v2, v3, v4, hsb, hqb⟩ := ipSegments_of_quad b.ip qb hb
  subst hqa
  subst hqb
  rw [quadLe_iff]
  dsimp only
  unfold cmpLe hostCompare
  rw [hsa, hsb]
  have hrange : List.range 4 = [0, 1, 2, 3] := rfl
  rw [hrange]
  by_cases h1 : u1.toRat = v1.toRat
  · have hq1 := DecNum.beqVal_true_of_eq u1 v1 h1
    by_cases h2 : u2.toRat = v2.toRat
    · have hq2 := DecNum.beqVal_true_of_eq u2 v2 h2
      by_cases h3 : u3.toRat = v3.toRat
      · have hq3 := DecNum.beqVal_true_of_eq u3 v3 h3
        by_cases h4 : u4.toRat = v4.toRat
        · have hq4 := DecNum.beqVal_true_of_eq u4 v4 h4
          simp only [List.find?, segNe, hq1, hq2, hq3, hq4, Bool.not_true,
            List.getElem?_cons_zero, List.getElem?_cons_succ]
          constructor
          · intro _
            exact Or.inr ⟨h1, Or.inr ⟨h2, Or.inr ⟨h3, le_of_eq h4⟩⟩⟩
          · intro _
            rfl
        · have hq4 := DecNum.beqVal_false_of_ne u4 v4 h4
          simp only [List.find?, segNe, hq1, hq2, hq3, hq4, Bool.not_true, Bool.not_false,
            List.getElem?_cons_zero, List.getElem?_cons_succ, segSub]
          rw [DecNum.le_zero_iff]
          constructor
          · intro hle
            exact Or.inr ⟨h1, Or.inr ⟨h2, Or.inr ⟨h3, hle⟩⟩⟩
          · rintro (hc | ⟨-, hc | ⟨-, hc | ⟨-, hc⟩⟩⟩)
            · exact absurd h1 (ne_of_lt hc)
            · exact absurd h2 (ne_of_lt hc)
            · exact absurd h3 (ne_of_lt hc)
            · exact hc
      · have hq3 := DecNum.beqVal_false_of_ne u3 v3 h3
        simp only [List.find?, segNe, hq1, hq2, hq3, Bool.not_true, Bool.not_false,
          List.getElem?_cons_zero, List.getElem?_cons_succ, segSub]
        rw [DecNum.le_zero_iff]
        constructor
        · intro hle
          exact Or.inr ⟨h1, Or.inr ⟨h2, Or.inl (lt_of_le_of_ne hle h3)⟩⟩
        · rintro (hc | ⟨-, hc | ⟨-, hc | ⟨hc, -⟩⟩⟩)
          · exact absurd h1 (ne_of_lt hc)
          · exact absurd h2 (ne_of_lt hc)
          · exact le_of_lt hc
          · exact absurd hc h3
    · have hq2 := DecNum.beqVal_false_of_ne u2 v2 h2
      simp only [List.find?, segNe, hq1, hq2, Bool.not_true, Bool.not_false,
        List.getElem?_cons_zero, List.getElem?_cons_succ, segSub]
      rw [DecNum.le_zero_iff]
      constructor
      · intro hle
        exact Or.inr ⟨h1, Or.inl (lt_of_le_of_ne hle h2)⟩
      · rintro (hc | ⟨-, hc | ⟨hc, -⟩⟩)
        · exact absurd h1 (ne_of_lt hc)
        · exact le_of_lt hc
        · exact absurd hc h2
  · have hq1 := DecNum.beqVal_false_of_ne u1 v1 h1
    simp only [List.find?, segNe, hq1, Bool.not_true, Bool.not_false,
      List.getElem?_cons_zero, List.getElem?_cons_succ, segSub]
    rw [DecNum.le_zero_iff]
    constructor
    · intro hle
      exact Or.inl (lt_of_le_of_ne hle h1)
    · rintro (hc | ⟨hc, -⟩)
      · exact le_of_lt hc
      · exact absurd hc h1

theorem mergeHostInto_quad (m : List (String × Host)) (host : Host)
    (hv : ∀ p ∈ m, (quadOf p.2.ip).isSome) (hh : (quadOf host.ip).isSome) :
    ∀ p ∈ mergeHostInto m host, (quadOf p.2.ip).isSome := by
  unfold mergeHostInto
  cases hg : mapGet m host.ip with
  | some ex =>
    intro p hp
    rcases mapSet_mem m host.ip _ p hp with hp | hp
    · rw [hp]
      exact hv (host.ip, ex) (mapGet_mem m host.ip ex hg)
    · exact hv p hp
  | none =>
    intro p hp
    rcases mapSet_mem m host.ip host p hp with hp | hp
    · rw [hp]
      exact hh
    · exact hv p hp

theorem hostFold_quad (arr : List Host) :
    ∀ m, (∀ p ∈ m, (quadOf p.2.ip).isSome) → (∀ h ∈ arr, (quadOf h.ip).isSome) →
      ∀ p ∈ arr.foldl mergeHostInto m, (quadOf p.2.ip).isSome := by
  induction arr with
  | nil => intro m hv _; exact hv
  | cons h rest ih =>
    intro m hv hin
    exact ih _ (mergeHostInto_quad m h hv (hin h (by simp)))
      (fun x hx => hin x (by simp [hx]))

theorem arraysFold_quad (hostArrays : List (List Host)) :
    ∀ m, (∀ p ∈ m, (quadOf p.2.ip).isSome) →
      (∀ arr ∈ hostArrays, ∀ h ∈ arr, (quadOf h.ip).isSome) →
      ∀ p ∈ hostArrays.foldl (fun m arr => arr.foldl mergeHostInto m) m,
        (quadOf p.2.ip).isSome := by
  induction hostArrays with
  | nil => intro m hv _; exact hv
  | cons arr rest ih =>
    intro m hv hin
    exact ih _ (hostFold_quad arr m hv (hin arr (by simp)))
      (fun a ha x hx => hin a (by simp [ha]) x hx)

/-- Under well-formed addresses the aggregated host list is pairwise
ordered by the segment-wise numeric order. -/
theorem mergeHosts_sorted (hostArrays : List (List Host))
    (hvalid : ∀ arr ∈ hostArrays, ∀ h ∈ arr, (quadOf h.ip).isSome) :
    (mergeHosts hostArrays).Pairwise hostQuadLe := by
  unfold mergeHosts
  set m := hostArrays.foldl (fun m arr => arr.foldl mergeHostInto m) [] with hm
  have hvals : ∀ h ∈ mapValues m, (quadOf h.ip).isSome := by
    intro h hmem
    obtain ⟨p, hp, hph⟩ := List.mem_map.mp hmem
    exact hph ▸ arraysFold_quad hostArrays [] (by simp) hvalid p hp
  have hpw : (jsSort hostCompare (mapValues m)).Pairwise
      (fun a b => cmpLe hostCompare a b = true) := by
    refine sortLE_pairwise (cmpLe hostCompare) (mapValues m) ?_ ?_
    · intro a hax b hbx
      obtain ⟨qa, hqa⟩ := Option.isSome_iff_exists.mp (hvals a hax)
      obtain ⟨qb, hqb⟩ := Option.isSome_iff_exists.mp (hvals b hbx)
      rcases quadLe_total qa qb with h | h
      · exact Or.inl ((cmpLe_hostCompare_iff a b qa qb hqa hqb).mpr h)
      · exact Or.inr ((cmpLe_hostCompare_iff b a qb qa hqb hqa).mpr h)
    · intro a hax b hbx c hcx hab hbc
      obtain ⟨qa, hqa⟩ := Option.isSome_iff_exists.mp (hvals a hax)
      obtain ⟨qb, hqb⟩ := Option.isSome_iff_exists.mp (hvals b hbx)
      obtain ⟨qc, hqc⟩ := Option.isSome_iff_exists.mp (hvals c hcx)
      exact (cmpLe_hostCompare_iff a c qa qc hqa hqc).mpr
        (quadLe_trans qa qb qc
          ((cmpLe_hostCompare_iff a b qa qb hqa hqb).mp hab)
          ((cmpLe_hostCompare_iff b c qb qc hqb hqc).mp hbc))
  refine hpw.imp_of_mem ?_
  intro a b hax hbx hab
  have hax2 := (jsSort_perm hostCompare (mapValues m)).mem_iff.mp hax
  have hbx2 := (jsSort_perm hostCompare (mapValues m)).mem_iff.mp hbx
  obtain ⟨qa, hqa⟩ := Option.isSome_iff_exists.mp (hvals a hax2)
  obtain ⟨qb, hqb⟩ := Option.isSome_iff_exists.mp (hvals b hbx2)
  have hq := (cmpLe_hostCompare_iff a b qa qb hqa hqb).mp hab
  unfold hostQuadLe
  rw [hqa, hqb]
  exact hq

/-- C9: the aggregated host list is sorted ascending on the four
dot-separated numeric address segments; in particular the three hosts
10.0.0.2, 10.0.0.10, 10.0.0.1 come out as 10.0.0.1, 10.0.0.2, 10.0.0.10
from every input order (single file or split across files) — numeric,
not lexicographic, order. -/
theorem hostsSortedNumerically :
    (∀ hostArrays : List (List Host),
      (∀ arr ∈ hostArrays, ∀ h ∈ arr, (quadOf h.ip).isSome) →
      (mergeHosts hostArrays).Pairwise hostQuadLe) ∧
    (mergeHosts [[host1, host2, host10]]).map (fun h => h.ip)
      = ["10.0.0.1", "10.0.0.2", "10.0.0.10"] ∧
    (mergeHosts [[host1, host10, host2]]).map (fun h => h.ip)
      = ["10.0.0.1", "10.0.0.2", "10.0.0.10"] ∧
    (mergeHosts [[host2, host1, host10]]).map (fun h => h.ip)
      = ["10.0.0.1", "10.0.0.2", "10.0.0.10"] ∧
    (mergeHosts [[host2, host10, host1]]).map (fun h => h.ip)
      = ["10.0.0.1", "10.0.0.2", "10.0.0.10"] ∧
    (mergeHosts [[host10, host1, host2]]).map (fun h => h.ip)
      = ["10.0.0.1", "10.0.0.2", "10.0.0.10"] ∧
    (mergeHosts [[host10, host2, host1]]).map (fun h => h.ip)
      = ["10.0.0.1", "10.0.0.2", "10.0.0.10"] ∧
    (mergeHosts [[host10], [host2], [host1]]).map (fun h => h.ip)
      = ["10.0.0.1", "10.0.0.2", "10.0.0.10"] := by
  refine ⟨mergeHosts_sorted, by decide, by decide, by decide, by decide, by decide, by decide,
    by decide⟩

/-- C9 witness: the sortedness statement applied to a concrete unsorted
batch. -/
theorem hostsSortedNumerically_witness :
    (mergeHosts [[host2, host10, host1]]).Pairwise hostQuadLe :=
  hostsSortedNumerically.1 [[host2, host10, host1]] (by decide)

/-! ## Random-id noninterference: strip-invariance of merge and render -/

theorem vulnCompare_strip (a b : Vulnerability) :
    vulnCompare (stripVuln a) (stripVuln b) = vulnCompare a b := rfl

theorem cmpLe_vulnCompare_strip (a b : Vulnerability) :
    cmpLe vulnCompare (stripVuln a) (stripVuln b) = cmpLe vulnCompare a b := rfl

theorem insertLE_map {α β : Type} (f : α → β) (leA : α → α → Bool) (leB : β → β → Bool)
    (hle : ∀ a b, leB (f a) (f b) = leA a b) (x : α) :
    ∀ l : List α, insertLE leB (f x) (l.map f) = (insertLE leA x l).map f
  | [] => rfl
  | y :: ys => by
    simp only [List.map_cons, insertLE, hle]
    by_cases h : leA x y
    · simp [h]
    · simp [h, insertLE_map f leA leB hle x ys]

theorem sortLE_map {α β : Type} (f : α → β) (leA : α → α → Bool) (leB : β → β → Bool)
    (hle : ∀ a b, leB (f a) (f b) = leA a b) :
    ∀ l : List α, sortLE leB (l.map f) = (sortLE leA l).map f
  | [] => rfl
  | x :: xs => by
    simp only [List.map_cons, sortLE]
    rw [sortLE_map f leA leB hle xs, insertLE_map f leA leB hle]

theorem jsSort_map {α β : Type} (f : α → β) (cmpA : α → α → JsNum) (cmpB : β → β → JsNum)
    (hc : ∀ a b, cmpB (f a) (f b) = cmpA a b) (l : List α) :
    jsSort cmpB (l.map f) = (jsSort cmpA l).map f := by
  unfold jsSort
  refine sortLE_map f (cmpLe cmpA) (cmpLe cmpB) ?_ l
  intro a b
  unfold cmpLe
  rw [hc]

theorem seedFold_strip (vulns : List Vulnerability) :
    ∀ m, (vulns.map stripVuln).foldl (fun m v => mapSet m v.pluginId v) (mapMapVal stripVuln m)
      = mapMapVal stripVuln (vulns.foldl (fun m v => mapSet m v.pluginId v) m) := by
  induction vulns with
  | nil => intro m; rfl
  | cons v rest ih =>
    intro m
    simp only [List.map_cons, List.foldl_cons]
    rw [show (stripVuln v).pluginId = v.pluginId from rfl,
      mapSet_mapMapVal stripVuln m v.pluginId v]
    exact ih (mapSet m v.pluginId v)

theorem mergeStep_strip (m : List (String × Vulnerability)) (v : Vulnerability) :
    mergeStep (mapMapVal stripVuln m) (stripVuln v) = mapMapVal stripVuln (mergeStep m v) := by
  unfold mergeStep
  rw [show (stripVuln v).pluginId = v.pluginId from rfl, mapGet_mapMapVal stripVuln m v.pluginId]
  cases hg : mapGet m v.pluginId with
  | some ev =>
    simp only [Option.map_some]
    exact mapSet_mapMapVal stripVuln m v.pluginId { ev with count := some (countOr1 ev.count + 1) }
  | none =>
    simp only [Option.map_none]
    exact mapSet_mapMapVal stripVuln m v.pluginId { v with count := some 1 }

theorem newFold_strip (vulns : List Vulnerability) :
    ∀ m, (vulns.map stripVuln).foldl mergeStep (mapMapVal stripVuln m)
      = mapMapVal stripVuln (vulns.foldl mergeStep m) := by
  induction vulns with
  | nil => intro m; rfl
  | cons v rest ih =>
    intro m
    simp only [List.map_cons, List.foldl_cons]
    rw [mergeStep_strip m v]
    exact ih _

theorem mergeAndCount_strip (e n : List Vulnerability) :
    mergeAndCountVulnerabilities (e.map stripVuln) (n.map stripVuln)
      = (mergeAndCountVulnerabilities e n).map stripVuln := by
  have h1 : (e.map stripVuln).foldl (fun m v => mapSet m v.pluginId v) []
      = mapMapVal stripVuln (e.foldl (fun m v => mapSet m v.pluginId v) []) :=
    seedFold_strip e []
  show jsSort vulnCompare (mapValues
      ((n.map stripVuln).foldl mergeStep
        ((e.map stripVuln).foldl (fun m v => mapSet m v.pluginId v) [])))
    = (jsSort vulnCompare (mapValues
        (n.foldl mergeStep (e.foldl (fun m v => mapSet m v.pluginId v) [])))).map stripVuln
  rw [h1, newFold_strip n _, mapValues_mapMapVal]
  exact jsSort_map stripVuln vulnCompare vulnCompare vulnCompare_strip _

theorem stripHost_ip (h : Host) : (stripHost h).ip = h.ip := rfl

theorem hostCompare_strip (a b : Host) :
    hostCompare (stripHost a) (stripHost b) = hostCompare a b := rfl

theorem stripBuckets_eq (h : Host) :
    (stripHost h).vulnerabilities = stripBuckets h.vulnerabilities := rfl

theorem mergedHost_strip (ex host : Host) :
    ({ stripHost ex with vulnerabilities :=
      { critical := mergeAndCountVulnerabilities (ex.vulnerabilities.critical.map stripVuln)
          (host.vulnerabilities.critical.map stripVuln)
        high := mergeAndCountVulnerabilities (ex.vulnerabilities.high.map stripVuln)
          (host.vulnerabilities.high.map stripVuln)
        medium := mergeAndCountVulnerabilities (ex.vulnerabilities.medium.map stripVuln)
          (host.vulnerabilities.medium.map stripVuln)
        low := mergeAndCountVulnerabilities (ex.vulnerabilities.low.map stripVuln)
          (host.vulnerabilities.low.map stripVuln)
        info := mergeAndCountVulnerabilities (ex.vulnerabilities.info.map stripVuln)
          (host.vulnerabilities.info.map stripVuln) } } : Host)
    = stripHost { ex with vulnerabilities :=
      { critical := mergeAndCountVulnerabilities ex.vulnerabilities.critical
          host.vulnerabilities.critical
        high := mergeAndCountVulnerabilities ex.vulnerabilities.high host.vulnerabilities.high
        medium := mergeAndCountVulnerabilities ex.vulnerabilities.medium
          host.vulnerabilities.medium
        low := mergeAndCountVulnerabilities ex.vulnerabilities.low host.vulnerabilities.low
        info := mergeAndCountVulnerabilities ex.vulnerabilities.info
          host.vulnerabilities.info } } := by
  unfold stripHost stripBuckets
  simp only [mergeAndCount_strip]

theorem mergeHostInto_strip (m : List (String × Host)) (host : Host) :
    mergeHostInto (mapMapVal stripHost m) (stripHost host)
      = mapMapVal stripHost (mergeHostInto m host) := by
  unfold mergeHostInto
  rw [stripHost_ip, mapGet_mapMapVal stripHost m host.ip]
  cases hg : mapGet m host.ip with
  | some ex =>
    show mapSet (mapMapVal stripHost m) host.ip
        ({ stripHost ex with vulnerabilities :=
          { critical := mergeAndCountVulnerabilities (ex.vulnerabilities.critical.map stripVuln)
              (host.vulnerabilities.critical.map stripVuln)
            high := mergeAndCountVulnerabilities (ex.vulnerabilities.high.map stripVuln)
              (host.vulnerabilities.high.map stripVuln)
            medium := mergeAndCountVulnerabilities (ex.vulnerabilities.medium.map stripVuln)
              (host.vulnerabilities.medium.map stripVuln)
            low := mergeAndCountVulnerabilities (ex.vulnerabilities.low.map stripVuln)
              (host.vulnerabilities.low.map stripVuln)
            info := mergeAndCountVulnerabilities (ex.vulnerabilities.info.map stripVuln)
              (host.vulnerabilities.info.map stripVuln) } } : Host)
      = mapMapVal stripHost (mapSet m host.ip
        { ex with vulnerabilities :=
          { critical := mergeAndCountVulnerabilities ex.vulnerabilities.critical
              host.vulnerabilities.critical
            high := mergeAndCountVulnerabilities ex.vulnerabilities.high
              host.vulnerabilities.high
            medium := mergeAndCountVulnerabilities ex.vulnerabilities.medium
              host.vulnerabilities.medium
            low := mergeAndCountVulnerabilities ex.vulnerabilities.low
              host.vulnerabilities.low
            info := mergeAndCountVulnerabilities ex.vulnerabilities.info
              host.vulnerabilities.info } })
    rw [mergedHost_strip ex host]
    exact mapSet_mapMapVal stripHost m host.ip _
  | none =>
    show mapSet (mapMapVal stripHost m) host.ip (stripHost host)
      = mapMapVal stripHost (mapSet m host.ip host)
    exact mapSet_mapMapVal stripHost m host.ip host

theorem hostFold_strip (arr : List Host) :
    ∀ m, (arr.map stripHost).foldl mergeHostInto (mapMapVal stripHost m)
      = mapMapVal stripHost (arr.foldl mergeHostInto m) := by
  induction arr with
  | nil => intro m; rfl
  | cons h rest ih =>
    intro m
    simp only [List.map_cons, List.foldl_cons]
    rw [mergeHostInto_strip m h]
    exact ih _

theorem arraysFold_strip (hostArrays : List (List Host)) :
    ∀ m, (hostArrays.map (fun arr => arr.map stripHost)).foldl
        (fun m arr => arr.foldl mergeHostInto m) (mapMapVal stripHost m)
      = mapMapVal stripHost (hostArrays.foldl (fun m arr => arr.foldl mergeHostInto m) m) := by
  induction hostArrays with
  | nil => intro m; rfl
  | cons arr rest ih =>
    intro m
    simp only [List.map_cons, List.foldl_cons]
    rw [hostFold_strip arr m]
    exact ih _

theorem mergeHosts_strip (hostArrays : List (List Host)) :
    mergeHosts (hostArrays.map (fun arr => arr.map stripHost))
      = (mergeHosts hostArrays).map stripHost := by
  have h1 : (hostArrays.map (fun arr => arr.map stripHost)).foldl
        (fun m arr => arr.foldl mergeHostInto m) []
      = mapMapVal stripHost (hostArrays.foldl (fun m arr => arr.foldl mergeHostInto m) []) :=
    arraysFold_strip hostArrays []
  show jsSort hostCompare (mapValues ((hostArrays.map (fun arr => arr.map stripHost)).foldl
      (fun m arr => arr.foldl mergeHostInto m) []))
    = (jsSort hostCompare (mapValues (hostArrays.foldl
        (fun m arr => arr.foldl mergeHostInto m) []))).map stripHost
  rw [h1, mapValues_mapMapVal]
  exact jsSort_map stripHost hostCompare hostCompare hostCompare_strip _

theorem section_strip (v : Vulnerability) (i : Nat) :
    generateVulnerabilitySection (stripVuln v) i = generateVulnerabilitySection v i := rfl

theorem totals_strip (hosts : List Host) :
    calculateVulnerabilityTotals (hosts.map stripHost) = calculateVulnerabilityTotals hosts := by
  unfold calculateVulnerabilityTotals
  suffices h : ∀ t : VulnerabilityTotals,
      (hosts.map stripHost).foldl (fun t h =>
        { critical := t.critical + h.vulnerabilities.critical.length
          high := t.high + h.vulnerabilities.high.length
          medium := t.medium + h.vulnerabilities.medium.length
          low := t.low + h.vulnerabilities.low.length
          info := t.info + h.vulnerabilities.info.length }) t
      = hosts.foldl (fun t h =>
        { critical := t.critical + h.vulnerabilities.critical.length
          high := t.high + h.vulnerabilities.high.length
          medium := t.medium + h.vulnerabilities.medium.length
          low := t.low + h.vulnerabilities.low.length
          info := t.info + h.vulnerabilities.info.length }) t by
    exact h _
  induction hosts with
  | nil => intro t; rfl
  | cons h rest ih =>
    intro t
    simp only [List.map_cons, List.foldl_cons]
    rw [show (stripHost h).vulnerabilities.critical.length
        = h.vulnerabilities.critical.length from by simp [stripHost, stripBuckets],
      show (stripHost h).vulnerabilities.high.length
        = h.vulnerabilities.high.length from by simp [stripHost, stripBuckets],
      show (stripHost h).vulnerabilities.medium.length
        = h.vulnerabilities.medium.length from by simp [stripHost, stripBuckets],
      show (stripHost h).vulnerabilities.low.length
        = h.vulnerabilities.low.length from by simp [stripHost, stripBuckets],
      show (stripHost h).vulnerabilities.info.length
        = h.vulnerabilities.info.length from by simp [stripHost, stripBuckets]]
    exact ih _

theorem bucketOf_strip (h : Host) (sev : Severity) :
    bucketOf (stripHost h) sev = (bucketOf h sev).map stripVuln := by
  cases sev <;> rfl

theorem flatMapBucket_strip (hosts : List Host) (sev : Severity) :
    (hosts.map stripHost).flatMap (fun h => bucketOf h sev)
      = (hosts.flatMap (fun h => bucketOf h sev)).map stripVuln := by
  induction hosts with
  | nil => rfl
  | cons h rest ih =>
    simp only [List.map_cons, List.flatMap_cons, ih, bucketOf_strip, List.map_append]

theorem innerRender_strip (vulns : List Vulnerability) :
    ∀ acc : String × Nat,
      (vulns.map stripVuln).foldl
        (fun (a : String × Nat) vuln => (a.1 ++ generateVulnerabilitySection vuln a.2, a.2 + 1)) acc
      = vulns.foldl
        (fun (a : String × Nat) vuln => (a.1 ++ generateVulnerabilitySection vuln a.2, a.2 + 1)) acc := by
  induction vulns with
  | nil => intro acc; rfl
  | cons v rest ih =>
    intro acc
    simp only [List.map_cons, List.foldl_cons, section_strip]
    exact ih _

theorem sectionsFold_strip (hosts : List Host) :
    sectionsFold (hosts.map stripHost) = sectionsFold hosts := by
  unfold sectionsFold
  suffices h : ∀ (sevs : List Severity) (acc : String × Nat),
      sevs.foldl (fun (acc : String × Nat) sev =>
        let severityVulns := (hosts.map stripHost).flatMap (fun h => bucketOf h sev)
        if severityVulns.length > 0 then
          let inner := severityVulns.foldl
            (fun (a : String × Nat) vuln =>
              (a.1 ++ generateVulnerabilitySection vuln a.2, a.2 + 1))
            (acc.1 ++ severityGroupHeader sev, acc.2)
          (inner.1 ++ "</div>", inner.2)
        else acc) acc
      = sevs.foldl (fun (acc : String × Nat) sev =>
        let severityVulns := hosts.flatMap (fun h => bucketOf h sev)
        if severityVulns.length > 0 then
          let inner := severityVulns.foldl
            (fun (a : String × Nat) vuln =>
              (a.1 ++ generateVulnerabilitySection vuln a.2, a.2 + 1))
            (acc.1 ++ severityGroupHeader sev, acc.2)
          (inner.1 ++ "</div>", inner.2)
        else acc) acc by
    exact h severityOrder ("", 1)
  intro sevs acc
  simp only [flatMapBucket_strip, List.length_map, innerRender_strip]

theorem successes_strip (outcomes : List (Except String (List Host))) :
    successes (outcomes.map stripOutcome) = (successes outcomes).map (fun hs => hs.map stripHost) := by
  induction outcomes with
  | nil => rfl
  | cons o rest ih =>
    cases o <;> simp [successes, stripOutcome] at ih ⊢ <;> exact ih

theorem generateReportContent_strip (cd : CompanyDetails)
    (outcomes : List (Except String (List Host))) :
    generateReportContent cd (outcomes.map stripOutcome) = generateReportContent cd outcomes := by
  show generateReportHeader cd
      ++ executiveSummary (mergeHosts (successes (outcomes.map stripOutcome)))
        (calculateVulnerabilityTotals (mergeHosts (successes (outcomes.map stripOutcome))))
      ++ (sectionsFold (mergeHosts (successes (outcomes.map stripOutcome)))).1
      ++ "</body></html>"
    = generateReportHeader cd
      ++ executiveSummary (mergeHosts (successes outcomes))
        (calculateVulnerabilityTotals (mergeHosts (successes outcomes)))
      ++ (sectionsFold (mergeHosts (successes outcomes))).1
      ++ "</body></html>"
  rw [successes_strip, mergeHosts_strip, totals_strip, sectionsFold_strip]
  simp [executiveSummary]

/-! ## Random-id noninterference: the parse side -/

theorem parseReportItem_strip (rng rng2 : Nat → String) (ctr ctr2 : Nat) (item : ReportItemXml) :
    stripVuln (parseReportItem rng ctr item).1 = stripVuln (parseReportItem rng2 ctr2 item).1 :=
  rfl

theorem parseReportItem_ctr (rng rng2 : Nat → String) (ctr : Nat) (item : ReportItemXml) :
    (parseReportItem rng ctr item).2 = (parseReportItem rng2 ctr item).2 := by
  unfold parseReportItem
  cases item.idAttr with
  | none => rfl
  | some s => by_cases hs : (s == "") = true <;> simp [hs]

theorem pushBucket_strip (b : VulnBuckets) (v : Vulnerability) :
    stripBuckets (pushBucket b v) = pushBucket (stripBuckets b) (stripVuln v) := by
  unfold pushBucket
  rw [show (stripVuln v).severity = v.severity from rfl]
  cases hv : v.severity <;> simp [stripBuckets, List.map_append]

theorem itemsFold_strip (rng rng2 : Nat → String) :
    ∀ (items : List ReportItemXml) (b1 b2 : VulnBuckets) (c : Nat),
      stripBuckets b1 = stripBuckets b2 →
      stripBuckets (items.foldl (fun (acc : VulnBuckets × Nat) item =>
          let parsed := parseReportItem rng acc.2 item
          (pushBucket acc.1 parsed.1, parsed.2)) (b1, c)).1
        = stripBuckets (items.foldl (fun (acc : VulnBuckets × Nat) item =>
          let parsed := parseReportItem rng2 acc.2 item
          (pushBucket acc.1 parsed.1, parsed.2)) (b2, c)).1
      ∧ (items.foldl (fun (acc : VulnBuckets × Nat) item =>
          let parsed := parseReportItem rng acc.2 item
          (pushBucket acc.1 parsed.1, parsed.2)) (b1, c)).2
        = (items.foldl (fun (acc : VulnBuckets × Nat) item =>
          let parsed := parseReportItem rng2 acc.2 item
          (pushBucket acc.1 parsed.1, parsed.2)) (b2, c)).2
  | [], b1, b2, c, h => ⟨h, rfl⟩
  | it :: rest, b1, b2, c, h => by
    simp only [List.foldl_cons]
    rw [parseReportItem_ctr rng rng2 c it]
    refine itemsFold_strip rng rng2 rest _ _ _ ?_
    rw [pushBucket_strip, pushBucket_strip, h, parseReportItem_strip rng rng2 c c it]

theorem parseReportHost_strip (rng rng2 : Nat → String) (ctr : Nat) (rh : ReportHostXml) :
    stripHost (parseReportHost rng ctr rh).1 = stripHost (parseReportHost rng2 ctr rh).1 ∧
    (parseReportHost rng ctr rh).2 = (parseReportHost rng2 ctr rh).2 := by
  have h := itemsFold_strip rng rng2 rh.reportItem.toList emptyBuckets emptyBuckets ctr rfl
  exact ⟨congrArg (Host.mk (hostIp rh.hostProperties (orJS rh.nameAttr ""))
    (orJS rh.nameAttr "")) h.1, h.2⟩

theorem hostsFold_strip (rng rng2 : Nat → String) :
    ∀ (rhs : List ReportHostXml) (l1 l2 : List Host) (c : Nat),
      l1.map stripHost = l2.map stripHost →
      ((rhs.foldl (fun (acc : List Host × Nat) rh =>
          let parsed := parseReportHost rng acc.2 rh
          (acc.1 ++ [parsed.1], parsed.2)) (l1, c)).1.map stripHost
        = (rhs.foldl (fun (acc : List Host × Nat) rh =>
          let parsed := parseReportHost rng2 acc.2 rh
          (acc.1 ++ [parsed.1], parsed.2)) (l2, c)).1.map stripHost)
      ∧ (rhs.foldl (fun (acc : List Host × Nat) rh =>
          let parsed := parseReportHost rng acc.2 rh
          (acc.1 ++ [parsed.1], parsed.2)) (l1, c)).2
        = (rhs.foldl (fun (acc : List Host × Nat) rh =>
          let parsed := parseReportHost rng2 acc.2 rh
          (acc.1 ++ [parsed.1], parsed.2)) (l2, c)).2
  | [], l1, l2, c, h => ⟨h, rfl⟩
  | rh :: rest, l1, l2, c, h => by
    simp only [List.foldl_cons]
    rw [(parseReportHost_strip rng rng2 c rh).2]
    refine hostsFold_strip rng rng2 rest _ _ _ ?_
    rw [List.map_append, List.map_append, h]
    simp only [List.map_cons, List.map_nil]
    rw [(parseReportHost_strip rng rng2 c rh).1]

theorem extractHosts_strip (rng rng2 : Nat → String) (ctr : Nat) (doc : NessusXml) :
    (extractHosts rng ctr doc).1.map stripHost = (extractHosts rng2 ctr doc).1.map stripHost ∧
    (extractHosts rng ctr doc).2 = (extractHosts rng2 ctr doc).2 := by
  unfold extractHosts
  exact hostsFold_strip rng rng2 _ [] [] ctr rfl

theorem pipelineFold_strip (xmlParse : String → Except String NessusXml)
    (rng rng2 : Nat → String) :
    ∀ (files : List (String × String)) (o1 o2 : List (Except String (List Host))) (c : Nat),
      o1.map stripOutcome = o2.map stripOutcome →
      ((files.foldl (fun (acc : List (Except String (List Host)) × Nat) f =>
          match parseNessusFile xmlParse rng acc.2 f.1 f.2 with
          | .ok parsed => (acc.1 ++ [.ok parsed.1], parsed.2)
          | .error e => (acc.1 ++ [.error e], acc.2)) (o1, c)).1.map stripOutcome
        = (files.foldl (fun (acc : List (Except String (List Host)) × Nat) f =>
          match parseNessusFile xmlParse rng2 acc.2 f.1 f.2 with
          | .ok parsed => (acc.1 ++ [.ok parsed.1], parsed.2)
          | .error e => (acc.1 ++ [.error e], acc.2)) (o2, c)).1.map stripOutcome)
      ∧ (files.foldl (fun (acc : List (Except String (List Host)) × Nat) f =>
          match parseNessusFile xmlParse rng acc.2 f.1 f.2 with
          | .ok parsed => (acc.1 ++ [.ok parsed.1], parsed.2)
          | .error e => (acc.1 ++ [.error e], acc.2)) (o1, c)).2
        = (files.foldl (fun (acc : List (Except String (List Host)) × Nat) f =>
          match parseNessusFile xmlParse rng2 acc.2 f.1 f.2 with
          | .ok parsed => (acc.1 ++ [.ok parsed.1], parsed.2)
          | .error e => (acc.1 ++ [.error e], acc.2)) (o2, c)).2
  | [], o1, o2, c, h => ⟨h, rfl⟩
  | f :: rest, o1, o2, c, h => by
    simp only [List.foldl_cons]
    unfold parseNessusFile
    cases hx : xmlParse f.2 with
    | error e =>
      dsimp only
      refine pipelineFold_strip xmlParse rng rng2 rest _ _ _ ?_
      rw [List.map_append, List.map_append, h]
    | ok doc =>
      dsimp only
      rw [show (extractHosts rng c doc).2 = (extractHosts rng2 c doc).2 from
        (extractHosts_strip rng rng2 c doc).2]
      refine pipelineFold_strip xmlParse rng rng2 rest _ _ _ ?_
      rw [List.map_append, List.map_append, h]
      simp only [List.map_cons, List.map_nil, stripOutcome]
      rw [(extractHosts_strip rng rng2 c doc).1]

/-- C10: for a fixed parser, fixed file contents and fixed metadata, the
rendered document is identical for any two random-id generators — the
randomly generated `id` field is never read downstream: aggregation keys
on `pluginId` and the synthesizer renders only the id-independent
fields. -/
theorem pipelineDeterministic (xmlParse : String → Except String NessusXml)
    (cd : CompanyDetails) (files : List (String × String)) (rng1 rng2 : Nat → String) :
    runPipeline xmlParse rng1 cd files = runPipeline xmlParse rng2 cd files := by
  show generateReportContent cd
      (files.foldl (fun (acc : List (Except String (List Host)) × Nat) f =>
        match parseNessusFile xmlParse rng1 acc.2 f.1 f.2 with
        | .ok parsed => (acc.1 ++ [.ok parsed.1], parsed.2)
        | .error e => (acc.1 ++ [.error e], acc.2)) ([], 0)).1
    = generateReportContent cd
      (files.foldl (fun (acc : List (Except String (List Host)) × Nat) f =>
        match parseNessusFile xmlParse rng2 acc.2 f.1 f.2 with
        | .ok parsed => (acc.1 ++ [.ok parsed.1], parsed.2)
        | .error e => (acc.1 ++ [.error e], acc.2)) ([], 0)).1
  have h := pipelineFold_strip xmlParse rng1 rng2 files [] [] 0 rfl
  rw [← generateReportContent_strip cd
      (files.foldl (fun (acc : List (Except String (List Host)) × Nat) f =>
        match parseNessusFile xmlParse rng1 acc.2 f.1 f.2 with
        | .ok parsed => (acc.1 ++ [.ok parsed.1], parsed.2)
        | .error e => (acc.1 ++ [.error e], acc.2)) ([], 0)).1,
    ← generateReportContent_strip cd
      (files.foldl (fun (acc : List (Except String (List Host)) × Nat) f =>
        match parseNessusFile xmlParse rng2 acc.2 f.1 f.2 with
        | .ok parsed => (acc.1 ++ [.ok parsed.1], parsed.2)
        | .error e => (acc.1 ++ [.error e], acc.2)) ([], 0)).1,
    h.1]

end NessusReport
